import Mathlib

/-!
Verification development for the Minicraft-ASCII world engine
(`source/core/world.py`, `source/core/tile.py`, `source/core/mob.py`,
`source/utils/saveload.py`, `source/utils/constants.py`).

Modelling conventions:
* Python integers are `Int`/`Nat`; Python floor division `//` and floor
  modulus `%` are `Int.fdiv` and `Int.fmod`.
* The global `random` stream is modelled as `Rng := Nat -> Nat`, a stream
  of raw draws; `randint lo hi` consumes one draw.  Cosmetic draws made
  inside `Tile.__init__` (glyph choice, background divisor) affect only
  sprite data and are omitted, as are sprite fields themselves.
* `source/core/perlin.py` is imported by `world.py` but is not part of the
  provided sources.  Modelled from the spec: per spec section 4.1 the three
  noise channels are pure functions of the permutation table and the
  coordinates with no hidden state, so chunk generation is parametrised by
  a `Field : Int -> Int -> Rat × Rat × Rat` giving (elevation, humidity,
  temperature) at a world cell, standing for the composite
  `Perlin.heightmap/humidity/temperature(self.perm, wx*SCALE, wy*SCALE, ...)`.
  Float thresholds in `world.py` are transcribed as exact rationals.
-/

/-- A deterministic stand-in for the global `random` stream: the n-th raw
draw of the process.  Consuming a draw shifts the stream. -/
def Rng : Type := Nat → Nat

/-- `random.randint(lo, hi)` (both ends inclusive): consume one raw draw. -/
def randint (lo hi : Nat) (r : Rng) : Nat × Rng :=
  (lo + r 0 % (hi + 1 - lo), fun n => r (n + 1))

/-- Persistent (non-cosmetic) fields of `Tile` from `source/core/tile.py`:
`id`, `solid`, `parent`, `health`.  The cosmetic fields (`chars`, `color`,
`sprite`) never influence game-state queries and are omitted. -/
structure Tile where
  id : Nat
  solid : Bool
  parent : Option Nat
  health : Option Int
deriving Repr, DecidableEq

/-- `Tile.clone` copies every persistent field (the sprite is re-rolled,
which is cosmetic), so on the persistent fields it is the identity. -/
def Tile.clone (t : Tile) : Tile := t

/-- The `tiles` catalog of `source/core/tile.py`, in dict insertion order
(ids 0..17), restricted to persistent fields. -/
def tileDefs : List (String × Tile) :=
  [ ("empty",      ⟨0,  false, none,    none⟩),
    ("ocean",      ⟨1,  false, none,    none⟩),
    ("sea",        ⟨2,  false, none,    none⟩),
    ("river",      ⟨3,  false, none,    none⟩),
    ("sand",       ⟨4,  false, some 5,  some 1⟩),
    ("dirt",       ⟨5,  false, some 6,  some 1⟩),
    ("hole",       ⟨6,  false, none,    none⟩),
    ("grass",      ⟨7,  false, some 5,  some 1⟩),
    ("tallgrass",  ⟨8,  false, some 7,  some 2⟩),
    ("oak tree",   ⟨9,  true,  some 7,  some 16⟩),
    ("birch tree", ⟨10, true,  some 7,  some 24⟩),
    ("pine tree",  ⟨11, true,  some 6,  some 32⟩),
    ("stone",      ⟨12, true,  some 13, some 32⟩),
    ("gravel",     ⟨13, false, some 5,  some 4⟩),
    ("ice",        ⟨14, false, some 2,  some 4⟩),
    ("snow",       ⟨15, false, some 5,  some 1⟩),
    ("frost",      ⟨16, false, some 7,  some 2⟩),
    ("iceberg",    ⟨17, false, some 1,  some 2⟩) ]

/-- Name lookup in the `tiles` catalog (`tiles["grass"]` etc.). -/
def tilesByName (s : String) : Tile :=
  match tileDefs.lookup s with
  | some t => t
  | none => ⟨0, false, none, none⟩

/-- `Game.tile`: the list of catalog names in insertion order, as built by
`Game.initialize` via `list(tiles)` in `source/game.py`. -/
def gameTileNames : List String := tileDefs.map Prod.fst

/-- `tiles[Game.tile[i]]` — resolving a stored tile id back to its catalog
entry, as done by `Saveload.load` and `World.set_tile`. -/
def tileById (i : Nat) : Tile := tilesByName (gameTileNames.getD i "")

/-- The `fluids` id set of `source/core/tile.py`. -/
def fluids : List Nat := [1, 2, 3]

/-- Persistent fields of `Mob` (`source/core/mob.py`): kind id, health,
facing (direction index into `['w','s','a','d']`), coordinates. -/
structure Mob where
  id : Nat
  health : Int
  facing : Nat
  x : Int
  y : Int
deriving Repr, DecidableEq

/-- `Mob.__init__` draws `choice(directions)`: consume one draw for the
facing.  `Mob.clone` re-runs `__init__` with the same id and health. -/
def mobInit (id : Nat) (health : Int) (r : Rng) : Mob × Rng :=
  let (f, r1) := randint 0 3 r
  (⟨id, health, f, 0, 0⟩, r1)

/-- The `mobs` catalog of `source/core/mob.py` (persistent fields). -/
def mobDefs : List (String × (Nat × Int)) :=
  [ ("pig", (0, 20)), ("sheep", (1, 20)) ]

/-- `Game.mobs`: catalog names in insertion order. -/
def gameMobNames : List String := mobDefs.map Prod.fst

/-- `mobs[Game.mobs[i]]`'s (id, health) pair, used when `Saveload.load`
rebuilds an entity from its stored kind id. -/
def mobKindById (i : Nat) : Nat × Int :=
  match mobDefs.lookup (gameMobNames.getD i "") with
  | some p => p
  | none => (0, 0)

/-- A chunk: the 8 × 8 row-major tile grid (`CHUNK_SIZE = 8`). -/
abbrev Chunk : Type := List (List Tile)

/-- The world state of `World.__init__` plus the player fields the world
code reads (`player.x/y/cx/cy`, and the player stats that `Saveload`
persists).  `ticks` is the updater's tick counter. -/
structure World where
  seed : Option Int
  perm : List Nat
  chunks : List ((Int × Int) × Chunk)
  entities : List Mob
  ticks : Nat
  sx : Int
  sy : Int
  px : Int
  py : Int
  pcx : Int
  pcy : Int
  phealth : Int
  penergy : Int
  pfacing : Int × Int
  loaded : Bool
deriving Repr, DecidableEq

/-- Python dict lookup on the chunk map. -/
def dictGet {α : Type} (k : Int × Int) : List ((Int × Int) × α) → Option α
  | [] => none
  | (k', v) :: rest => if k' = k then some v else dictGet k rest

/-- Python dict assignment: replace an existing binding in place, else
append a new one at the end (insertion order preserved). -/
def dictPut {α : Type} (k : Int × Int) (v : α) :
    List ((Int × Int) × α) → List ((Int × Int) × α)
  | [] => [(k, v)]
  | (k', v') :: rest =>
      if k' = k then (k, v) :: rest else (k', v') :: dictPut k v rest

/-- `chunk[y][x]` with the out-of-range default never reached on 8×8 data. -/
def cellAt (g : Chunk) (y x : Nat) : Tile :=
  (g.getD y []).getD x ⟨0, false, none, none⟩

/-- (elevation, humidity, temperature) at a world cell; see the header
note on the modelled `Perlin` channels. -/
def NoiseField : Type := Int → Int → Rat × Rat × Rat

/-- One cell of `World.load_chunk`'s biome classification (world.py lines
76–182), transcribed branch for branch, including the short-circuit
`randint` draws (a `randint` guarded by `and` is only drawn when the left
conjunct holds).  Returns the generated tile (always a catalog clone) and
the advanced random stream.  There is no reseed anywhere in this path:
the stream is whatever the caller hands in. -/
def genCell (f : NoiseField) (r : Rng) (wx wy : Int) : Tile × Rng :=
  let e := (f wx wy).1
  let h := (f wx wy).2.1
  let t := (f wx wy).2.2
  if e < 0.28 then (tilesByName "ocean", r)
  else if 0.28 < e ∧ e < 0.32 then
    (if t < 0.25 then tilesByName "iceberg" else tilesByName "ocean", r)
  else if 0.32 < e ∧ e < 0.42 then
    (if t < 0.25 then tilesByName "ice" else tilesByName "sea", r)
  else if 0.42 < e ∧ e < 0.60 then
    (if t < 0.25 then tilesByName "snow" else tilesByName "sand", r)
  else if e < 1.75 then
    if t < 0.25 then
      if h < 0.4 then
        (if (randint 0 8 r).1 ≤ 4 then tilesByName "frost"
          else tilesByName "snow", (randint 0 8 r).2)
      else
        if 0.75 < e then
          (if (randint 0 16 r).1 ≤ 4 then tilesByName "pine tree"
            else tilesByName "frost", (randint 0 16 r).2)
        else (tilesByName "frost", r)
    else if t < 0.5 then
      if 0.4 < h then
        if 0.70 < e then
          (if (randint 0 8 r).1 ≤ 4 then tilesByName "tallgrass"
            else tilesByName "grass", (randint 0 8 r).2)
        else (tilesByName "grass", r)
      else
        (if (randint 0 8 r).1 ≤ 4 then tilesByName "frost"
          else tilesByName "snow", (randint 0 8 r).2)
    else if t < 0.70 then
      if 0.4 < h then
        if 0.50 < e then
          (if (randint 0 16 r).1 ≤ 4 then tilesByName "oak tree"
            else tilesByName "grass", (randint 0 16 r).2)
        else (tilesByName "grass", r)
      else (tilesByName "grass", r)
    else if t < 0.9 then
      if h < 0.3 then (tilesByName "sand", r)
      else if 0.3 < h ∧ h < 0.5 then (tilesByName "grass", r)
      else
        if 0.60 < e then
          if (randint 0 32 r).1 ≤ 8 then
            (if (randint 0 1 (randint 0 32 r).2).1 = 1 then
              tilesByName "oak tree" else tilesByName "birch tree",
              (randint 0 1 (randint 0 32 r).2).2)
          else (tilesByName "grass", (randint 0 32 r).2)
        else (tilesByName "grass", r)
    else
      if h < 0.4 then (tilesByName "sand", r)
      else if 0.4 < h ∧ h < 0.6 then (tilesByName "grass", r)
      else
        if 0.60 < e then
          if (randint 0 32 r).1 ≤ 8 then
            (if (randint 0 1 (randint 0 32 r).2).1 = 1 then
              tilesByName "oak tree" else tilesByName "birch tree",
              (randint 0 1 (randint 0 32 r).2).2)
          else (tilesByName "grass", (randint 0 32 r).2)
        else (tilesByName "grass", r)
  else if e < 1.95 then (tilesByName "stone", r)
  else (tilesByName "gravel", r)

/-- The nested `for h in range(8): for w in range(8)` scan of `load_chunk`
visits the 64 cells row-major: cell index i is at row h = i / 8 and column
w = i % 8, with world coordinates (x*8 + w, y*8 + h). -/
def scanCoords (x y : Int) : List (Int × Int) :=
  (List.range 64).map (fun i => (x * 8 + (i % 8 : Nat), y * 8 + (i / 8 : Nat)))

/-- Generate the tiles at the given world coordinates in order, threading
the random stream through the per-cell draws. -/
def genCellsOn (f : NoiseField) : List (Int × Int) → Rng → List Tile × Rng
  | [], r => ([], r)
  | c :: cs, r =>
      let (t, r1) := genCell f r c.1 c.2
      let (ts, r2) := genCellsOn f cs r1
      (t :: ts, r2)

/-- Reassemble the row-major cell list into the 8 × 8 chunk grid. -/
def toGrid (ts : List Tile) : Chunk :=
  (List.range 8).map fun hh =>
    (List.range 8).map fun ww => ts.getD (hh * 8 + ww) ⟨0, false, none, none⟩

/-- The generated cells of chunk (x, y) with their world coordinates, in
scan order, plus the advanced stream. -/
def genPairs (f : NoiseField) (r : Rng) (x y : Int) :
    List ((Int × Int) × Tile) × Rng :=
  let (ts, r1) := genCellsOn f (scanCoords x y) r
  ((scanCoords x y).zip ts, r1)

/-- The spawn-point check of `load_chunk` (world.py lines 184–188): while
`(sx, sy)` is still `(0, 0)` — which doubles as the unset sentinel — a
grass/sand/snow cell overwrites it with its world coordinates. -/
def spawnUpd (s : Int × Int) (c : (Int × Int) × Tile) : Int × Int :=
  if s.1 = 0 ∧ s.2 = 0 then
    if c.2.id ∈ [7, 4, 15] then c.1 else s
  else s

/-- `World.load_chunk` (world.py lines 58–191): a no-op when the chunk is
already present; otherwise generate all 64 cells in scan order from the
current random stream (no reseeding), fold the spawn-point check over them,
and store the grid under its chunk key. -/
def loadChunk (f : NoiseField) (W : World) (r : Rng) (x y : Int) :
    World × Rng :=
  if (dictGet (x, y) W.chunks).isSome then (W, r)
  else
    let (ps, r1) := genPairs f r x y
    let grid := toGrid (ps.map Prod.snd)
    let s := ps.foldl spawnUpd (W.sx, W.sy)
    ({ W with chunks := dictPut (x, y) grid W.chunks, sx := s.1, sy := s.2 },
      r1)

/-- `World.get_tile` (world.py lines 194–208): floor-divide into chunk
coordinates, lazily load that chunk, and read the cell at the floor-mod
local offsets. -/
def getTileW (f : NoiseField) (W : World) (r : Rng) (x y : Int) :
    World × Rng × Tile :=
  let (W1, r1) := loadChunk f W r (x.fdiv 8) (y.fdiv 8)
  let g := (dictGet (x.fdiv 8, y.fdiv 8) W1.chunks).getD []
  (W1, r1, cellAt g (y.fmod 8).toNat (x.fmod 8).toNat)

/-- `World.set_tile` (world.py lines 211–231): lazily load the chunk, then
store a fresh clone of the argument (resolved through the catalog when an
id is given) at the local offsets. -/
def setTileW (f : NoiseField) (W : World) (r : Rng) (x y : Int)
    (arg : Sum Nat Tile) : World × Rng :=
  let (W1, r1) := loadChunk f W r (x.fdiv 8) (y.fdiv 8)
  let g := (dictGet (x.fdiv 8, y.fdiv 8) W1.chunks).getD []
  let t := match arg with
    | .inl i => (tileById i).clone
    | .inr t0 => t0.clone
  let ly := (y.fmod 8).toNat
  let lx := (x.fmod 8).toNat
  let g' := g.set ly ((g.getD ly []).set lx t)
  ({ W1 with chunks := dictPut (x.fdiv 8, y.fdiv 8) g' W1.chunks }, r1)

/-- `World.spawn_mob` (world.py lines 234–252): reject when more than 16
entities exist (checked before anything else); otherwise read the target
tile (which may lazily generate its chunk), reject fluids and solid tiles,
else assign the coordinates to the mob and append it. -/
def spawnMob (f : NoiseField) (W : World) (r : Rng) (x y : Int) (m : Mob) :
    World × Rng :=
  if 16 < W.entities.length then (W, r)
  else
    let (W1, r1, t) := getTileW f W r x y
    if t.id ∈ fluids ∨ t.solid then (W1, r1)
    else ({ W1 with entities := W1.entities ++ [{ m with x := x, y := y }] },
      r1)

/-- `World.tiles_around` (world.py lines 421–442): scan the four orthogonal
neighbours, wrapped into the proper neighbour chunk by floor mod / floor
division; a missing neighbour chunk contributes nothing. -/
def tilesAround (W : World) (infl : List Tile) (x y : Nat) (cx cy : Int) :
    Bool :=
  [((-1 : Int), (0 : Int)), (1, 0), (0, -1), (0, 1)].any fun d =>
    let dy := d.1
    let dx := d.2
    let ny := ((Int.ofNat y + dy).fmod 8).toNat
    let nx := ((Int.ofNat x + dx).fmod 8).toNat
    let ncx := cx + (Int.ofNat x + dx).fdiv 8
    let ncy := cy + (Int.ofNat y + dy).fdiv 8
    match dictGet (ncx, ncy) W.chunks with
    | none => false
    | some g => (infl.map Tile.id).contains (cellAt g ny nx).id

/-- `World.update_tiles` (world.py lines 393–418): on a present chunk,
clone the replacement once, then — reading cell membership from the
original chunk and neighbour influence from the not-yet-committed world —
write the replacement into a copy, committed after the scan.  (The final
`temp_chunk != this_chunk` test only skips re-storing an identical grid;
the committed content is the same either way.) -/
def updateTiles (W : World) (cx cy : Int) (target parent : Tile)
    (infl : List Tile) : World :=
  match dictGet (cx, cy) W.chunks with
  | none => W
  | some g =>
      let replace := parent.clone
      let g' := (List.range 8).map fun yt => (List.range 8).map fun xt =>
        if (cellAt g yt xt).id = target.id ∧ tilesAround W infl xt yt cx cy
        then replace else cellAt g yt xt
      { W with chunks := dictPut (cx, cy) g' W.chunks }

/-- `Player.move` (player.py lines 53–68): step onto the target cell when
it is not solid (the read may lazily generate a chunk), then derive the
facing cell from the attempted delta. -/
def playerMove (f : NoiseField) (W : World) (r : Rng) (mx my : Int) :
    World × Rng :=
  let fx := mx - W.px
  let fy := my - W.py
  let (W1, r1, t) := getTileW f W r mx my
  let W2 := if t.solid = false then { W1 with px := mx, py := my } else W1
  let W3 :=
    if fx ≠ 0 then { W2 with pfacing := (W2.px + fx, W2.py) }
    else if fy ≠ 0 then { W2 with pfacing := (W2.px, W2.py + fy) }
    else W2
  (W3, r1)

/-- `World.initialize` (world.py lines 40–55).  `seed(self.seed)` reseeds
the global generator and `Perlin.permutation()` draws a fresh table from
it: the reseeded stream is the `r` argument and the drawn table the
`newPerm` argument.  The chunk loops are `range(xp - 3, xp + 3)`, i.e. the
six values xp-3 .. xp+2, on both axes; the chunk map is never cleared.
Finally `player.initialize(self, sx, sy)` delegates to `Player.move`. -/
def windowPairs (xp yp : Int) : List (Int × Int) :=
  ((List.range 6).map fun i : Nat => xp - 3 + (i : Int)).flatMap fun cx =>
    ((List.range 6).map fun j : Nat => yp - 3 + (j : Int)).map
      fun cy => (cx, cy)

def loadChunksFold (f : NoiseField) (st : World × Rng)
    (ps : List (Int × Int)) : World × Rng :=
  ps.foldl (fun s p => loadChunk f s.1 s.2 p.1 p.2) st

def initWorld (f : NoiseField) (W : World) (newPerm : List Nat) (r : Rng)
    (ws : Int) : World × Rng :=
  let W1 := { W with seed := some ws, perm := newPerm }
  let st := loadChunksFold f (W1, r) (windowPairs (W.px.fdiv 8) (W.py.fdiv 8))
  let st2 := playerMove f st.1 st.2 st.1.sx st.1.sy
  ({ st2.1 with loaded := true }, st2.2)

/-- `math.cos`/`math.sin` of `radians(angle)` for integer degree angles,
abstracted as a parameter (the math library is outside the repository);
theorems constrain it by cos² + sin² = 1 where needed. -/
def Trig : Type := Nat → Rat × Rat

/-- `int(q)`: Python float-to-int conversion truncates toward zero. -/
def pyInt (q : Rat) : Int := if 0 ≤ q then ⌊q⌋ else ⌈q⌉

/-- The spawn-candidate offsets of `World.update` (world.py lines 334–339):
`spawn_distance = randint(8, 16) * TILE_SIZE` with `TILE_SIZE = 16`, then
`cos_angle = cos(radians(angle)) * spawn_distance` and likewise for sin. -/
def spawnOffset (trig : Trig) (ang d : Nat) : Rat × Rat :=
  ((trig ang).1 * ((d : Rat) * 16), (trig ang).2 * ((d : Rat) * 16))

/-- The candidate world cell (lines 341–349): per axis a random sign, then
`int(player.x ± cos_angle)`. -/
def spawnPoint (px py : Int) (off : Rat × Rat) (b1 b2 : Nat) : Int × Int :=
  ( if b1 = 0 then pyInt ((px : Rat) + off.1) else pyInt ((px : Rat) - off.1),
    if b2 = 0 then pyInt ((py : Rat) + off.2) else pyInt ((py : Rat) - off.2) )

/-- The every-4-ticks pig-spawn attempt of `World.update` (lines 333–352):
draw distance, angle and the two signs; only when no existing mob occupies
the candidate cell, clone the catalog pig (one facing draw) and hand it to
`spawn_mob`. -/
def spawnPhase (f : NoiseField) (trig : Trig) (W : World) (r : Rng) :
    World × Rng :=
  let (d, r1) := randint 8 16 r
  let (ang, r2) := randint 0 359 r1
  let off := spawnOffset trig ang d
  let (b1, r3) := randint 0 1 r2
  let (b2, r4) := randint 0 1 r3
  let c := spawnPoint W.px W.py off b1 b2
  if W.entities.any fun m => m.x = c.1 && m.y = c.2 then (W, r4)
  else
    let (pig, r5) := mobInit 0 20 r4
    spawnMob f W r5 c.1 c.2 pig

/-- One chunk of the automaton window of `World.update` (lines 354–385):
every 32 ticks a 1-in-9 gated grass spread over dirt, every 8 ticks an
unconditional water spread over holes. -/
def autoStep (ticks : Nat) (s : World × Rng) (c : Int × Int) : World × Rng :=
  let (W, r) := s
  let (W1, r1) :=
    if ticks % 32 = 0 then
      let (g, r2) := randint 0 8 r
      (if g = 4 then
        updateTiles W c.1 c.2 (tilesByName "dirt") (tilesByName "grass")
          [tilesByName "grass", tilesByName "tallgrass"]
      else W, r2)
    else (W, r)
  if ticks % 8 = 0 then
    (updateTiles W1 c.1 c.2 (tilesByName "hole") (tilesByName "river")
      [tilesByName "ocean", tilesByName "sea", tilesByName "river"], r1)
  else (W1, r1)

/-- The 7 × 7 chunk window `range(cx - 3, cx + 4) × range(cy - 3, cy + 4)`
around the cached player chunk coordinates, cx outer loop. -/
def autoPhase (W : World) (r : Rng) (ticks : Nat) : World × Rng :=
  let rx := (List.range 7).map fun i => W.pcx - 3 + (i : Int)
  let ry := (List.range 7).map fun j => W.pcy - 3 + (j : Int)
  (rx.flatMap fun cx => ry.map fun cy => (cx, cy)).foldl (autoStep ticks)
    (W, r)

/-- The `offsets` table of `source/core/mob.py` indexed by facing
`['w','s','a','d']`. -/
def facingOffset : Nat → Int × Int
  | 0 => (0, -1)
  | 1 => (0, 1)
  | 2 => (-1, 0)
  | _ => (1, 0)

/-- `Mob.can_move`: the faced tile must be neither fluid nor solid (the
read may lazily generate a chunk). -/
def canMove (f : NoiseField) (W : World) (r : Rng) (m : Mob) :
    World × Rng × Bool :=
  let o := facingOffset m.facing
  let (W1, r1, t) := getTileW f W r (m.x + o.1) (m.y + o.2)
  (W1, r1, decide (t.id ∉ fluids) && !t.solid)

/-- `Mob.move` (mob.py lines 54–61): when blocked, or on a 1-in-5 draw
(made only when not blocked, by short-circuit), pick a new random facing
instead of moving; else step one cell in the current facing. -/
def mobMove (f : NoiseField) (W : World) (r : Rng) (m : Mob) :
    World × Rng × Mob :=
  let (W1, r1, ok) := canMove f W r m
  if ok = false then
    let (fc, r2) := randint 0 3 r1
    (W1, r2, { m with facing := fc })
  else
    let (d5, r2) := randint 0 4 r1
    if d5 = 2 then
      let (fc, r3) := randint 0 3 r2
      (W1, r3, { m with facing := fc })
    else
      let o := facingOffset m.facing
      (W1, r2, { m with x := m.x + o.1, y := m.y + o.2 })

/-- One entity of the every-4-ticks mob walk of `World.update` (lines
387–390): a 1-in-9 gate, then `Mob.move`. -/
def mobMoveAt (f : NoiseField) (s : World × Rng) (i : Nat) : World × Rng :=
  let (W, r) := s
  let (g, r1) := randint 0 8 r
  if g = 4 then
    match W.entities.get? i with
    | none => (W, r1)
    | some m =>
        let (W1, r2, m2) := mobMove f W r1 m
        ({ W1 with entities := W1.entities.set i m2 }, r2)
  else (W, r1)

def mobMovePhase (f : NoiseField) (W : World) (r : Rng) : World × Rng :=
  (List.range W.entities.length).foldl (mobMoveAt f) (W, r)

/-- The phases of `World.update` after the spawn attempt. -/
def postSpawnPhases (f : NoiseField) (s : World × Rng) (ticks : Nat) :
    World × Rng :=
  let s2 := autoPhase s.1 s.2 ticks
  if ticks % 4 = 0 then mobMovePhase f s2.1 s2.2 else s2

/-- `World.update` (world.py lines 325–390): store the day counter modulo
24000, attempt the pig spawn on ticks divisible by 4, run the automaton
window, then the mob walk on ticks divisible by 4. -/
def update (f : NoiseField) (trig : Trig) (W : World) (r : Rng)
    (ticks : Nat) : World × Rng :=
  let W0 := { W with ticks := ticks % 24000 }
  if ticks % 4 = 0 then postSpawnPhases f (spawnPhase f trig W0 r) ticks
  else postSpawnPhases f (W0, r) ticks

/-- The persisted record written by `Saveload.save` (saveload.py lines
43–60), minus the constant display name. -/
structure SaveData where
  chunkIds : List ((Int × Int) × List (List Nat))
  entities : List (Nat × Int × Int)
  pX : Int
  pY : Int
  pHealth : Int
  pEnergy : Int
  pFacing : Int × Int
  wSeed : Option Int
  wPerm : List Nat
  wSpawn : Int × Int
  wTicks : Nat
deriving Repr, DecidableEq

/-- `Saveload.save` (saveload.py lines 27–63): tiles collapse to bare ids,
entities to (kind id, x, y), plus the player block and the world scalars.
`uticks` is `updater.ticks`. -/
def saveGame (W : World) (uticks : Nat) : SaveData :=
  { chunkIds := W.chunks.map fun kv => (kv.1, kv.2.map fun row => row.map Tile.id)
    entities := W.entities.map fun m => (m.id, m.x, m.y)
    pX := W.px
    pY := W.py
    pHealth := W.phealth
    pEnergy := W.penergy
    pFacing := W.pfacing
    wSeed := W.seed
    wPerm := W.perm
    wSpawn := (W.sx, W.sy)
    wTicks := uticks }

/-- Rebuilding the entity list in `Saveload.load` (lines 94–103): each
stored kind id is resolved through `mobs[Game.mobs[id]]` and cloned — one
facing draw per mob, health taken from the catalog — then the stored
coordinates are reassigned. -/
def rebuildMobs (r : Rng) : List (Nat × Int × Int) → List Mob × Rng
  | [] => ([], r)
  | e :: es =>
      let k := mobKindById e.1
      let (m, r1) := mobInit k.1 k.2 r
      let (ms, r2) := rebuildMobs r1 es
      ({ m with x := e.2.1, y := e.2.2 } :: ms, r2)

/-- The chunk-map reconstruction of `Saveload.load` (lines 86–92): clone
the catalog tile of each stored id, keyed as before. -/
def rebuildChunks (cs : List ((Int × Int) × List (List Nat))) :
    List ((Int × Int) × Chunk) :=
  cs.map fun kv => (kv.1, kv.2.map fun row => row.map fun i =>
    (tileById i).clone)

/-- The in-place field restores of `Saveload.load` (lines 71–92), with the
rebuilt entity list `ms`. -/
def loadScalars (W : World) (sd : SaveData) (ms : List Mob) : World :=
  { W with
    px := sd.pX, py := sd.pY, phealth := sd.pHealth, penergy := sd.pEnergy
    pfacing := sd.pFacing
    seed := sd.wSeed, perm := sd.wPerm
    sx := sd.wSpawn.1, sy := sd.wSpawn.2
    chunks := rebuildChunks sd.chunkIds
    entities := ms }

/-- `Saveload.load` (saveload.py lines 66–109) applied to a pre-load world
`W` (the live objects being mutated): restore the player block and world
scalars, rebuild every chunk by cloning the catalog tile of each stored id,
rebuild the entities, then `player.initialize` (a self-move) and mark
loaded.  Returns the world together with the restored `updater.ticks`. -/
def loadGame (f : NoiseField) (W : World) (sd : SaveData) (r : Rng) :
    (World × Nat) × Rng :=
  let ms := (rebuildMobs r sd.entities).1
  let r1 := (rebuildMobs r sd.entities).2
  let W1 := loadScalars W sd ms
  let st := playerMove f W1 r1 sd.pX sd.pY
  (({ st.1 with loaded := true }, sd.wTicks), st.2)

/-!
### Object-identity model for tile aliasing

The pure model above erases Python object identity.  To reason about
aliasing, every stored tile carries the allocation number of the `clone()`
call that produced it: `clone` hands out the next fresh tag.  `load_chunk`
overwrites every cell of a new chunk with its own `clone()` call (world.py
line 182), so materialised chunks start with pairwise distinct tags; the
model therefore works on already-materialised chunks and skips lazy
generation (a missing chunk makes the operation a no-op here). -/

structure RTile where
  val : Tile
  ref : Nat
deriving Repr, DecidableEq

abbrev RChunk : Type := List (List RTile)

structure RWorld where
  chunks : List ((Int × Int) × RChunk)
  fresh : Nat
deriving Repr, DecidableEq

def rCellAt (g : RChunk) (y x : Nat) : RTile :=
  (g.getD y []).getD x ⟨⟨0, false, none, none⟩, 0⟩

/-- `tile.clone()` in the identity model: a fresh allocation. -/
def cloneR (w : RWorld) (t : Tile) : RTile × RWorld :=
  (⟨t, w.fresh⟩, { w with fresh := w.fresh + 1 })

/-- `World.set_tile` in the identity model: resolve the argument (id or
tile), then always store one fresh clone at the target cell. -/
def setTileR (w : RWorld) (x y : Int) (arg : Sum Nat Tile) : RWorld :=
  let key := ((x.fdiv 8 : Int), (y.fdiv 8 : Int))
  match dictGet key w.chunks with
  | none => w
  | some g =>
      let t := match arg with
        | .inl i => tileById i
        | .inr t0 => t0
      let rt := (cloneR w t).1
      let w1 := (cloneR w t).2
      let ly := (y.fmod 8).toNat
      let lx := (x.fmod 8).toNat
      let g2 := g.set ly ((g.getD ly []).set lx rt)
      { w1 with chunks := dictPut key g2 w1.chunks }

/-- `World.tiles_around` in the identity model (identical scan, on the
tagged cells' underlying ids). -/
def tilesAroundR (w : RWorld) (infl : List Tile) (x y : Nat) (cx cy : Int) :
    Bool :=
  [((-1 : Int), (0 : Int)), (1, 0), (0, -1), (0, 1)].any fun d =>
    let dy := d.1
    let dx := d.2
    let ny := ((Int.ofNat y + dy).fmod 8).toNat
    let nx := ((Int.ofNat x + dx).fmod 8).toNat
    let ncx := cx + (Int.ofNat x + dx).fdiv 8
    let ncy := cy + (Int.ofNat y + dy).fdiv 8
    match dictGet (ncx, ncy) w.chunks with
    | none => false
    | some g => (infl.map Tile.id).contains (rCellAt g ny nx).val.id

/-- `World.update_tiles` in the identity model.  Decisive detail from
world.py lines 398 and 414: `replace = parent.clone()` runs once per pass,
and the same `replace` object is assigned to every replaced cell. -/
def updateTilesR (w : RWorld) (cx cy : Int) (target parent : Tile)
    (infl : List Tile) : RWorld :=
  match dictGet (cx, cy) w.chunks with
  | none => w
  | some g =>
      let replace := (cloneR w parent).1
      let w1 := (cloneR w parent).2
      let g2 := (List.range 8).map fun yt => (List.range 8).map fun xt =>
        if (rCellAt g yt xt).val.id = target.id ∧
            tilesAroundR w infl xt yt cx cy
        then replace else rCellAt g yt xt
      { w1 with chunks := dictPut (cx, cy) g2 w1.chunks }

/-- All allocation tags stored in the world are below the fresh counter
(true of every state produced by `clone`-allocations). -/
def RefsBelow (w : RWorld) : Prop :=
  ∀ kv ∈ w.chunks, ∀ row ∈ kv.2, ∀ c ∈ row, c.ref < w.fresh

instance : DecidablePred RefsBelow := fun w => by
  unfold RefsBelow; infer_instance

/-!
### Spec-side definition for the spawn-point rule -/

/-- Modelled from the spec (section 4.2 / section 8 "Spawn selection"): the
claimed rule — the spawn point is the very first cell classified
grass/sand/snow in generation scan order, first match wins, never
recomputed. -/
def specFirstQualifying : List ((Int × Int) × Tile) → Option (Int × Int)
  | [] => none
  | c :: cs =>
      if c.2.id ∈ [7, 4, 15] then some c.1 else specFirstQualifying cs

/-- What the guard in `load_chunk` actually latches: the first qualifying
generated cell whose coordinates are not the `(0, 0)` sentinel. -/
def firstNZQualifying : List ((Int × Int) × Tile) → Option (Int × Int)
  | [] => none
  | c :: cs =>
      if c.2.id ∈ [7, 4, 15] ∧ c.1 ≠ (0, 0) then some c.1
      else firstNZQualifying cs

/-!
### Basic dictionary and projection lemmas -/

theorem dictGet_dictPut_self {α : Type} (k : Int × Int) (v : α)
    (l : List ((Int × Int) × α)) : dictGet k (dictPut k v l) = some v := by
  induction l with
  | nil => simp [dictGet, dictPut]
  | cons kv rest ih =>
      obtain ⟨k', v'⟩ := kv
      by_cases h : k' = k <;> simp [dictGet, dictPut, h, ih]

theorem dictGet_dictPut_ne {α : Type} {k k' : Int × Int} (v : α)
    (l : List ((Int × Int) × α)) (h : k' ≠ k) :
    dictGet k' (dictPut k v l) = dictGet k' l := by
  induction l with
  | nil => simp [dictGet, dictPut, Ne.symm h]
  | cons kv rest ih =>
      obtain ⟨k0, v0⟩ := kv
      by_cases h0 : k0 = k
      · subst h0
        simp [dictGet, dictPut, Ne.symm h]
      · simp [dictGet, dictPut, h0, ih]

/-- `load_chunk` touches only the chunk map and the spawn point. -/
theorem loadChunk_proj (f : NoiseField) (W : World) (r : Rng) (x y : Int) :
    (loadChunk f W r x y).1.seed = W.seed ∧
    (loadChunk f W r x y).1.perm = W.perm ∧
    (loadChunk f W r x y).1.entities = W.entities ∧
    (loadChunk f W r x y).1.ticks = W.ticks ∧
    (loadChunk f W r x y).1.px = W.px ∧
    (loadChunk f W r x y).1.py = W.py ∧
    (loadChunk f W r x y).1.pcx = W.pcx ∧
    (loadChunk f W r x y).1.pcy = W.pcy ∧
    (loadChunk f W r x y).1.phealth = W.phealth ∧
    (loadChunk f W r x y).1.penergy = W.penergy ∧
    (loadChunk f W r x y).1.pfacing = W.pfacing ∧
    (loadChunk f W r x y).1.loaded = W.loaded := by
  unfold loadChunk
  split <;> simp

/-- An existing binding survives `load_chunk` untouched. -/
theorem loadChunk_preserves {f : NoiseField} {W : World} {r : Rng}
    {x y : Int} {k : Int × Int} {g : Chunk}
    (h : dictGet k W.chunks = some g) :
    dictGet k (loadChunk f W r x y).1.chunks = some g := by
  unfold loadChunk
  split
  · exact h
  · rename_i hnone
    have hne : k ≠ (x, y) := by
      intro he
      subst he
      simp [h] at hnone
    simp only []
    rw [dictGet_dictPut_ne _ _ hne]
    exact h

/-- After `load_chunk (x, y)` the chunk `(x, y)` is present. -/
theorem loadChunk_self_present (f : NoiseField) (W : World) (r : Rng)
    (x y : Int) :
    (dictGet (x, y) (loadChunk f W r x y).1.chunks).isSome := by
  unfold loadChunk
  split
  · rename_i hsome
    exact hsome
  · simp only []
    rw [dictGet_dictPut_self]
    rfl

/-!
### Concrete worlds and fields used by the evaluations -/

/-- The state after `World.__init__` and `Player.__init__`. -/
def emptyWorld : World :=
  { seed := none, perm := [], chunks := [], entities := [], ticks := 0,
    sx := 0, sy := 0, px := 0, py := 0, pcx := 0, pcy := 0,
    phealth := 20, penergy := 20, pfacing := (0, 0), loaded := false }

/-- The all-zero random stream. -/
def rngZero : Rng := fun _ => 0

/-- A noise field putting every cell in the warm-plains branch
(elevation 0.7, humidity 0.4, temperature 0.8): deterministic grass,
no random draw. -/
def fieldGrass : NoiseField := fun _ _ => (0.7, 0.4, 0.8)

/-- A noise field putting every cell in the deep-ocean branch
(elevation 0.1): deterministic ocean, no random draw. -/
def fieldOcean : NoiseField := fun _ _ => (0.1, 0.1, 0.5)

/-- A noise field putting every cell in the cold tundra branch
(elevation 0.7, humidity 0.3, temperature 0.1): every cell draws
`randint(0, 8)` and becomes frost (≤ 4) or snow (> 4). -/
def fieldTundra : NoiseField := fun _ _ => (0.7, 0.3, 0.1)

/-- An 8×8 all-grass chunk. -/
def grassGrid : Chunk := toGrid (List.replicate 64 (tilesByName "grass"))

/-- A pig standing at (5, 5). -/
def pigAt55 : Mob := ⟨0, 20, 0, 5, 5⟩

/-- A world with sixteen mobs and a materialised all-grass chunk (0, 0). -/
def worldSixteen : World :=
  { emptyWorld with
    chunks := [((0, 0), grassGrid)]
    entities := List.replicate 16 pigAt55 }

/-!
### Claim C5 — coordinate translation -/

/-- Claim C5 (confirmed): coordinate translation uses floor semantics and
round-trips.  For all integers x and y — negatives included — the chunk
coordinate is the floor quotient by 8, the local offset the floor
remainder in [0, 8), composing `chunk * 8 + local` returns exactly (x, y),
and `get_tile` reads the cell of that chunk at that offset. -/
theorem c5_coordinate_roundtrip (f : NoiseField) (W : World) (r : Rng)
    (x y : Int) :
    8 * x.fdiv 8 + x.fmod 8 = x ∧
    8 * y.fdiv 8 + y.fmod 8 = y ∧
    0 ≤ x.fmod 8 ∧ x.fmod 8 < 8 ∧ 0 ≤ y.fmod 8 ∧ y.fmod 8 < 8 ∧
    (getTileW f W r x y).2.2 =
      cellAt ((dictGet (x.fdiv 8, y.fdiv 8)
          (loadChunk f W r (x.fdiv 8) (y.fdiv 8)).1.chunks).getD [])
        (y.fmod 8).toNat (x.fmod 8).toNat := by
  have hx := Int.fmod_add_fdiv x 8
  have hy := Int.fmod_add_fdiv y 8
  have hx8 := Int.fmod_eq_emod x (show (0 : Int) ≤ 8 by norm_num)
  have hy8 := Int.fmod_eq_emod y (show (0 : Int) ≤ 8 by norm_num)
  refine ⟨by omega, by omega, ?_, ?_, ?_, ?_, rfl⟩ <;> omega

/-- Floor semantics on a negative example: world x = -17 lies in chunk -3
at local offset 7 (truncation toward zero would give -2 and fail to
round-trip). -/
theorem c5_negative_example :
    (-17 : Int).fdiv 8 = -3 ∧ (-17 : Int).fmod 8 = 7 ∧
    8 * (-3 : Int) + 7 = -17 := by decide

/-!
### Claim C2 — the entity cap -/

/-- Claim C2 counterexample: `spawn_mob` called with exactly 16 mobs
present is not a no-op — the guard is `len(entities) > 16` — so the
seventeenth pig is appended. -/
theorem c2_cex :
    worldSixteen.entities.length = 16 ∧
    (spawnMob fieldGrass worldSixteen rngZero 1 1 pigAt55).1.entities.length
      = 17 := by
  constructor
  · rfl
  · with_unfolding_all decide

/-- `get_tile` phrased through projections (definitional). -/
theorem getTileW_eq (f : NoiseField) (W : World) (r : Rng) (x y : Int) :
    getTileW f W r x y =
      ((loadChunk f W r (x.fdiv 8) (y.fdiv 8)).1,
       (loadChunk f W r (x.fdiv 8) (y.fdiv 8)).2,
       cellAt ((dictGet (x.fdiv 8, y.fdiv 8)
           (loadChunk f W r (x.fdiv 8) (y.fdiv 8)).1.chunks).getD [])
         (y.fmod 8).toNat (x.fmod 8).toNat) := rfl

/-- `spawn_mob` phrased through projections (definitional). -/
theorem spawnMob_eq (f : NoiseField) (W : World) (r : Rng) (x y : Int)
    (m : Mob) :
    spawnMob f W r x y m =
      if 16 < W.entities.length then (W, r)
      else
        if (getTileW f W r x y).2.2.id ∈ fluids ∨ (getTileW f W r x y).2.2.solid
        then ((getTileW f W r x y).1, (getTileW f W r x y).2.1)
        else ({ (getTileW f W r x y).1 with
                  entities := (getTileW f W r x y).1.entities ++
                    [{ m with x := x, y := y }] },
              (getTileW f W r x y).2.1) := rfl

/-- Claim C2 as amended: the guard `len(entities) > 16` rejects a spawn
only when at least 17 mobs already exist (then the world and the stream
are returned untouched), so the entity count never exceeds 17 — but a
17th mob can be appended when exactly 16 exist. -/
theorem c2_entity_cap (f : NoiseField) (W : World) (r : Rng) (x y : Int)
    (m : Mob) (h : W.entities.length ≤ 17) :
    (spawnMob f W r x y m).1.entities.length ≤ 17 ∧
    (W.entities.length = 17 → spawnMob f W r x y m = (W, r)) := by
  have hent : (getTileW f W r x y).1.entities = W.entities := by
    rw [getTileW_eq]
    exact (loadChunk_proj f W r (x.fdiv 8) (y.fdiv 8)).2.2.1
  rw [spawnMob_eq]
  by_cases h1 : 16 < W.entities.length
  · rw [if_pos h1]
    exact ⟨h, fun _ => rfl⟩
  · rw [if_neg h1]
    constructor
    · split
      · simp only [hent]
        omega
      · simp only [List.length_append, hent, List.length_cons,
          List.length_nil]
        omega
    · intro h17
      omega

/-- Witness for the amended C2 at a concrete input: a world at the true
cap of 17 mobs rejects the next spawn unchanged. -/
theorem c2_entity_cap_witness :
    ({ worldSixteen with
        entities := List.replicate 17 pigAt55 } : World).entities.length ≤ 17
    ∧ (spawnMob fieldGrass
        { worldSixteen with entities := List.replicate 17 pigAt55 }
        rngZero 1 1 pigAt55).1.entities.length ≤ 17 := by
  refine ⟨by with_unfolding_all decide, ?_⟩
  exact (c2_entity_cap fieldGrass
    { worldSixteen with entities := List.replicate 17 pigAt55 }
    rngZero 1 1 pigAt55 (by with_unfolding_all decide)).1

/-!
### Claim C3 — snapshot discipline of the automaton -/

/-- On a present chunk, `update_tiles` commits the grid computed from the
pre-update state. -/
theorem updateTiles_of_present {W : World} {cx cy : Int} {g : Chunk}
    (h : dictGet (cx, cy) W.chunks = some g) (target parent : Tile)
    (infl : List Tile) :
    updateTiles W cx cy target parent infl =
      { W with chunks := (dictPut (cx, cy)
          ((List.range 8).map fun yt => (List.range 8).map fun xt =>
            if (cellAt g yt xt).id = target.id ∧
                tilesAround W infl xt yt cx cy
            then parent.clone else cellAt g yt xt) W.chunks) } := by
  unfold updateTiles
  rw [h]

/-- Reading back a cell of a grid built by a double range-map. -/
theorem cellAt_mapGrid (F : Nat → Nat → Tile) {y x : Nat} (hy : y < 8)
    (hx : x < 8) :
    cellAt ((List.range 8).map fun yt =>
      (List.range 8).map fun xt => F yt xt) y x = F y x := by
  unfold cellAt
  simp [List.getD_eq_getElem?_getD, List.getElem?_map, List.getElem?_range,
    hy, hx]

/-- Claim C3 (confirmed): within a single `update_tiles` pass over one
chunk, target membership and neighbour influence are both read from the
pre-update state and writes go into a copy, so a target cell with no
influence among its four pre-state neighbours is left untouched by the
pass — even while another cell of the same chunk (for instance one hop
closer to the influence) is replaced in that very pass.  Propagation is
thus at most one cell per pass. -/
theorem c3_one_cell_per_pass (W : World) (cx cy : Int)
    (target parent : Tile) (infl : List Tile) (g : Chunk)
    (xa ya xb yb : Nat)
    (hg : dictGet (cx, cy) W.chunks = some g)
    (hya : ya < 8) (hxa : xa < 8) (hyb : yb < 8) (hxb : xb < 8)
    (hA : (cellAt g ya xa).id = target.id)
    (hAn : tilesAround W infl xa ya cx cy = false)
    (hB : (cellAt g yb xb).id = target.id)
    (hBn : tilesAround W infl xb yb cx cy = true) :
    cellAt ((dictGet (cx, cy)
        (updateTiles W cx cy target parent infl).chunks).getD []) ya xa
      = cellAt g ya xa ∧
    cellAt ((dictGet (cx, cy)
        (updateTiles W cx cy target parent infl).chunks).getD []) yb xb
      = parent.clone := by
  rw [updateTiles_of_present hg]
  dsimp only
  rw [dictGet_dictPut_self]
  constructor
  · rw [show ((some ((List.range 8).map fun yt =>
        (List.range 8).map fun xt =>
          if (cellAt g yt xt).id = target.id ∧
              tilesAround W infl xt yt cx cy
          then parent.clone else cellAt g yt xt)).getD []) =
        ((List.range 8).map fun yt => (List.range 8).map fun xt =>
          if (cellAt g yt xt).id = target.id ∧
              tilesAround W infl xt yt cx cy
          then parent.clone else cellAt g yt xt) from rfl]
    rw [cellAt_mapGrid _ hya hxa]
    simp [hAn]
  · rw [show ((some ((List.range 8).map fun yt =>
        (List.range 8).map fun xt =>
          if (cellAt g yt xt).id = target.id ∧
              tilesAround W infl xt yt cx cy
          then parent.clone else cellAt g yt xt)).getD []) =
        ((List.range 8).map fun yt => (List.range 8).map fun xt =>
          if (cellAt g yt xt).id = target.id ∧
              tilesAround W infl xt yt cx cy
          then parent.clone else cellAt g yt xt) from rfl]
    rw [cellAt_mapGrid _ hyb hxb]
    simp [hB, hBn]

/-- A chunk whose top row is grass, dirt, dirt, then sand; rows 1–7 sand. -/
def c3grid : Chunk :=
  toGrid (tilesByName "grass" :: tilesByName "dirt" :: tilesByName "dirt" ::
    List.replicate 61 (tilesByName "sand"))

def c3world : World := { emptyWorld with chunks := [((0, 0), c3grid)] }

/-- Witness for C3: the dirt at (2,0) — two hops from the grass at (0,0) —
survives the very pass that flips the dirt at (1,0). -/
theorem c3_one_cell_per_pass_witness :
    cellAt ((dictGet (0, 0)
        (updateTiles c3world 0 0 (tilesByName "dirt") (tilesByName "grass")
          [tilesByName "grass", tilesByName "tallgrass"]).chunks).getD [])
        0 2 = cellAt c3grid 0 2 ∧
    cellAt ((dictGet (0, 0)
        (updateTiles c3world 0 0 (tilesByName "dirt") (tilesByName "grass")
          [tilesByName "grass", tilesByName "tallgrass"]).chunks).getD [])
        0 1 = (tilesByName "grass").clone :=
  c3_one_cell_per_pass c3world 0 0 (tilesByName "dirt") (tilesByName "grass")
    [tilesByName "grass", tilesByName "tallgrass"] c3grid 2 0 1 0
    (by with_unfolding_all decide) (by norm_num) (by norm_num) (by norm_num)
    (by norm_num) (by with_unfolding_all decide)
    (by with_unfolding_all decide) (by with_unfolding_all decide)
    (by with_unfolding_all decide)

/-!
### Claim C1 — chunk generation and load order -/

/-- A stream whose first 64 draws are 0 and later draws are 5: under
`fieldTundra` a chunk generated at the head of the stream is all frost,
while one generated after 64 consumed draws is all snow. -/
def c1rng : Rng := fun n => if n < 64 then 0 else 5

/-- Claim C1 counterexample: with the same seed-derived noise field and the
same process stream, loading chunk (0, 0) directly and loading it after an
unrelated load of chunk (1, 1) produce different tile grids — `load_chunk`
never reseeds the generator (there is no `seed(x + y)` call in world.py
lines 58–191), so the stochastic biome branches read a stream that prior
chunk loads have advanced. -/
theorem c1_cex :
    dictGet (0, 0) (loadChunk fieldTundra
        (loadChunk fieldTundra emptyWorld c1rng 1 1).1
        (loadChunk fieldTundra emptyWorld c1rng 1 1).2 0 0).1.chunks ≠
    dictGet (0, 0) (loadChunk fieldTundra emptyWorld c1rng 0 0).1.chunks := by
  with_unfolding_all decide

/-- Claim C1 as amended: chunk generation is deterministic in the noise
field (i.e. the seed-derived permutation), the chunk coordinates, and the
random-stream state at entry — and in nothing else.  Two runs that reach
`load_chunk (x, y)` with equal streams produce identical grids and equal
final streams no matter which other chunks are already loaded; order
independence fails only through the shared stream, which prior loads
advance (no per-chunk reseed exists in the code). -/
theorem c1_state_determinism (f : NoiseField) (W1 W2 : World) (r : Rng)
    (x y : Int)
    (h1 : dictGet (x, y) W1.chunks = none)
    (h2 : dictGet (x, y) W2.chunks = none) :
    dictGet (x, y) (loadChunk f W1 r x y).1.chunks =
      dictGet (x, y) (loadChunk f W2 r x y).1.chunks ∧
    (loadChunk f W1 r x y).2 = (loadChunk f W2 r x y).2 := by
  unfold loadChunk
  rw [h1, h2]
  simp only [Option.isSome_none, Bool.false_eq_true, if_false]
  rw [dictGet_dictPut_self, dictGet_dictPut_self]
  exact ⟨rfl, trivial⟩

/-- Witness for the amended C1: chunk (2, 2) is absent from both the empty
world and a world already holding chunk (0, 0); generated from the same
stream, both give the same grid. -/
theorem c1_state_determinism_witness :
    dictGet (2, 2) (loadChunk fieldGrass emptyWorld rngZero 2 2).1.chunks =
      dictGet (2, 2) (loadChunk fieldGrass c3world rngZero 2 2).1.chunks ∧
    (loadChunk fieldGrass emptyWorld rngZero 2 2).2 =
      (loadChunk fieldGrass c3world rngZero 2 2).2 :=
  c1_state_determinism fieldGrass emptyWorld c3world rngZero 2 2
    (by with_unfolding_all decide) (by with_unfolding_all decide)

/-!
### Claim C8 — clone freshness and aliasing -/

/-- Reading back a cell of a tagged grid built by a double range-map. -/
theorem rCellAt_mapGrid (F : Nat → Nat → RTile) {y x : Nat} (hy : y < 8)
    (hx : x < 8) :
    rCellAt ((List.range 8).map fun yt =>
      (List.range 8).map fun xt => F yt xt) y x = F y x := by
  unfold rCellAt
  simp [List.getD_eq_getElem?_getD, List.getElem?_map, List.getElem?_range,
    hy, hx]

/-- All tags stored in an identity-model world, flattened. -/
def rRefs (w : RWorld) : List Nat :=
  w.chunks.flatMap fun kv => kv.2.flatMap fun row => row.map RTile.ref

/-- A tagged chunk with distinct tags 1..64: dirt at (0,0) and (2,0), grass
at (1,0), sand elsewhere. -/
def c8grid : RChunk :=
  (List.range 8).map fun y => (List.range 8).map fun x =>
    ⟨(if y = 0 ∧ x = 0 then tilesByName "dirt"
      else if y = 0 ∧ x = 1 then tilesByName "grass"
      else if y = 0 ∧ x = 2 then tilesByName "dirt"
      else tilesByName "sand"), y * 8 + x + 1⟩

def c8world : RWorld := { chunks := [((0, 0), c8grid)], fresh := 65 }

/-- Claim C8 counterexample: starting from a world whose cells all hold
pairwise distinct tile instances, one grass-spread pass replaces the two
dirt cells flanking the grass with the *same* clone — `update_tiles` runs
`replace = parent.clone()` once per pass (world.py line 398) and assigns
that single object to every replaced cell (line 414) — so two distinct
cells end up sharing one mutable Tile. -/
theorem c8_cex :
    (rRefs c8world).Nodup ∧
    (rCellAt ((dictGet (0, 0) (updateTilesR c8world 0 0 (tilesByName "dirt")
        (tilesByName "grass") [tilesByName "grass", tilesByName "tallgrass"]
        ).chunks).getD []) 0 0).ref =
    (rCellAt ((dictGet (0, 0) (updateTilesR c8world 0 0 (tilesByName "dirt")
        (tilesByName "grass") [tilesByName "grass", tilesByName "tallgrass"]
        ).chunks).getD []) 0 2).ref ∧
    (rCellAt ((dictGet (0, 0) (updateTilesR c8world 0 0 (tilesByName "dirt")
        (tilesByName "grass") [tilesByName "grass", tilesByName "tallgrass"]
        ).chunks).getD []) 0 0).val = tilesByName "grass" ∧
    (rCellAt ((dictGet (0, 0) (updateTilesR c8world 0 0 (tilesByName "dirt")
        (tilesByName "grass") [tilesByName "grass", tilesByName "tallgrass"]
        ).chunks).getD []) 0 2).val = tilesByName "grass" := by
  with_unfolding_all decide

/-- Claim C8 as amended: `set_tile` always stores a fresh clone of its
argument — the written cell carries a brand-new allocation tag, distinct
from the tag of every tile the world held before — but `update_tiles`
clones the replacement only once per pass and writes that same instance
into every cell it replaces, so two cells replaced in the same pass do
share one mutable Tile.  Freshness holds per `set_tile` call; per-cell
freshness fails for the automaton. -/
theorem c8_clone_discipline (w : RWorld) (x y : Int) (arg : Sum Nat Tile)
    (g : RChunk)
    (hg : dictGet (x.fdiv 8, y.fdiv 8) w.chunks = some g)
    (hlen : (y.fmod 8).toNat < g.length)
    (hrow : (x.fmod 8).toNat < (g.getD (y.fmod 8).toNat []).length)
    (hb : RefsBelow w)
    (cx cy : Int) (g2 : RChunk) (target parent : Tile) (infl : List Tile)
    (hg2 : dictGet (cx, cy) w.chunks = some g2)
    (xa ya xb yb : Nat)
    (hya : ya < 8) (hxa : xa < 8) (hyb : yb < 8) (hxb : xb < 8)
    (hA1 : (rCellAt g2 ya xa).val.id = target.id)
    (hA2 : tilesAroundR w infl xa ya cx cy = true)
    (hB1 : (rCellAt g2 yb xb).val.id = target.id)
    (hB2 : tilesAroundR w infl xb yb cx cy = true) :
    ((rCellAt ((dictGet (x.fdiv 8, y.fdiv 8)
          (setTileR w x y arg).chunks).getD [])
        (y.fmod 8).toNat (x.fmod 8).toNat).ref = w.fresh ∧
      ∀ kv ∈ w.chunks, ∀ row ∈ kv.2, ∀ c ∈ row,
        c.ref ≠ (rCellAt ((dictGet (x.fdiv 8, y.fdiv 8)
            (setTileR w x y arg).chunks).getD [])
          (y.fmod 8).toNat (x.fmod 8).toNat).ref) ∧
    (rCellAt ((dictGet (cx, cy)
          (updateTilesR w cx cy target parent infl).chunks).getD []) ya xa =
      rCellAt ((dictGet (cx, cy)
          (updateTilesR w cx cy target parent infl).chunks).getD []) yb xb ∧
      (rCellAt ((dictGet (cx, cy)
          (updateTilesR w cx cy target parent infl).chunks).getD [])
        ya xa).ref = w.fresh) := by
  have hset : rCellAt ((dictGet (x.fdiv 8, y.fdiv 8)
      (setTileR w x y arg).chunks).getD [])
      (y.fmod 8).toNat (x.fmod 8).toNat =
      ⟨(match arg with
        | .inl i => tileById i
        | .inr t0 => t0), w.fresh⟩ := by
    unfold setTileR
    dsimp only
    rw [hg]
    dsimp only
    rw [dictGet_dictPut_self]
    unfold rCellAt cloneR
    simp [List.getD_eq_getElem?_getD, List.getElem?_set_self, hlen, hrow,
      List.getElem?_set]
    have hgb : g[(y.fmod 8).toNat] = g.getD (y.fmod 8).toNat [] := by
      rw [List.getD_eq_getElem?_getD, List.getElem?_eq_getElem hlen]
      rfl
    rw [if_pos (by rw [hgb]; exact hrow)]
    rfl
  refine ⟨⟨by rw [hset], ?_⟩, ?_⟩
  · intro kv hkv row hrowm c hc
    rw [hset]
    exact Nat.ne_of_lt (hb kv hkv row hrowm c hc)
  · unfold updateTilesR
    rw [hg2]
    dsimp only
    rw [dictGet_dictPut_self]
    rw [show ((some ((List.range 8).map fun yt => (List.range 8).map fun xt =>
        if (rCellAt g2 yt xt).val.id = target.id ∧
            tilesAroundR w infl xt yt cx cy
        then (cloneR w parent).1 else rCellAt g2 yt xt)).getD []) =
        ((List.range 8).map fun yt => (List.range 8).map fun xt =>
        if (rCellAt g2 yt xt).val.id = target.id ∧
            tilesAroundR w infl xt yt cx cy
        then (cloneR w parent).1 else rCellAt g2 yt xt) from rfl]
    rw [rCellAt_mapGrid _ hya hxa, rCellAt_mapGrid _ hyb hxb]
    simp [hA1, hA2, hB1, hB2, cloneR]

/-- Witness for the amended C8 at concrete inputs: `set_tile` writes tag 65
(fresh, unequal to every stored tag) at cell (3, 0), while one automaton
pass over `c8world` makes cells (0,0) and (2,0) share the single tag-65
clone. -/
theorem c8_clone_discipline_witness :
    ((rCellAt ((dictGet ((3 : Int).fdiv 8, (0 : Int).fdiv 8)
          (setTileR c8world 3 0 (Sum.inl 6)).chunks).getD [])
        ((0 : Int).fmod 8).toNat ((3 : Int).fmod 8).toNat).ref =
        c8world.fresh ∧
      ∀ kv ∈ c8world.chunks, ∀ row ∈ kv.2, ∀ c ∈ row,
        c.ref ≠ (rCellAt ((dictGet ((3 : Int).fdiv 8, (0 : Int).fdiv 8)
            (setTileR c8world 3 0 (Sum.inl 6)).chunks).getD [])
          ((0 : Int).fmod 8).toNat ((3 : Int).fmod 8).toNat).ref) ∧
    (rCellAt ((dictGet (0, 0)
          (updateTilesR c8world 0 0 (tilesByName "dirt")
            (tilesByName "grass")
            [tilesByName "grass", tilesByName "tallgrass"]).chunks).getD [])
        0 0 =
      rCellAt ((dictGet (0, 0)
          (updateTilesR c8world 0 0 (tilesByName "dirt")
            (tilesByName "grass")
            [tilesByName "grass", tilesByName "tallgrass"]).chunks).getD [])
        0 2 ∧
      (rCellAt ((dictGet (0, 0)
          (updateTilesR c8world 0 0 (tilesByName "dirt")
            (tilesByName "grass")
            [tilesByName "grass", tilesByName "tallgrass"]).chunks).getD [])
        0 0).ref = c8world.fresh) :=
  c8_clone_discipline c8world 3 0 (Sum.inl 6) c8grid
    (by with_unfolding_all decide) (by with_unfolding_all decide)
    (by with_unfolding_all decide) (by with_unfolding_all decide)
    0 0 c8grid (tilesByName "dirt") (tilesByName "grass")
    [tilesByName "grass", tilesByName "tallgrass"]
    (by with_unfolding_all decide) 0 0 2 0
    (by norm_num) (by norm_num) (by norm_num) (by norm_num)
    (by with_unfolding_all decide) (by with_unfolding_all decide)
    (by with_unfolding_all decide) (by with_unfolding_all decide)

/-!
### Claim C9 — spawn-point selection -/

/-- Once the spawn latch is closed (any value other than the (0,0)
sentinel), the fold leaves it alone. -/
theorem spawnFold_of_ne (l : List ((Int × Int) × Tile)) (s : Int × Int)
    (h : ¬(s.1 = 0 ∧ s.2 = 0)) : l.foldl spawnUpd s = s := by
  induction l with
  | nil => rfl
  | cons c cs ih =>
      rw [List.foldl_cons, show spawnUpd s c = s from by
        unfold spawnUpd; rw [if_neg h]]
      exact ih

/-- From the open sentinel, the fold latches exactly the first qualifying
cell with non-sentinel coordinates. -/
theorem spawnFold_zero (l : List ((Int × Int) × Tile)) :
    l.foldl spawnUpd (0, 0) = (firstNZQualifying l).getD (0, 0) := by
  induction l with
  | nil => rfl
  | cons c cs ih =>
      rw [List.foldl_cons]
      unfold firstNZQualifying
      by_cases hq : c.2.id ∈ [7, 4, 15]
      · by_cases hz : c.1 = (0, 0)
        · rw [if_neg (by simp [hz])]
          rw [show spawnUpd (0, 0) c = (0, 0) from by
            unfold spawnUpd; simp [hq, hz]]
          exact ih
        · rw [if_pos ⟨hq, hz⟩]
          rw [show spawnUpd (0, 0) c = c.1 from by
            unfold spawnUpd; simp [hq]]
          rw [spawnFold_of_ne cs c.1 (by
            intro hc
            exact hz (Prod.ext hc.1 hc.2))]
          rfl
      · rw [if_neg (by simp [hq])]
        rw [show spawnUpd (0, 0) c = (0, 0) from by
          unfold spawnUpd; simp [hq]]
        exact ih

/-- Claim C9 as amended: when a chunk is generated, the spawn point is
latched to the first cell, in row-major scan order, that is grass, sand or
snow *and* does not sit at world coordinates (0, 0) — the (0, 0) value is
also the unset sentinel, so a qualifying cell at exactly (0, 0) leaves the
latch open; and once the spawn holds any non-sentinel value, later
generation never changes it. -/
theorem c9_spawn_rule (f : NoiseField) (W : World) (r : Rng) (x y : Int)
    (habs : dictGet (x, y) W.chunks = none) :
    ((W.sx = 0 ∧ W.sy = 0) →
      ((loadChunk f W r x y).1.sx, (loadChunk f W r x y).1.sy) =
        (firstNZQualifying (genPairs f r x y).1).getD (0, 0)) ∧
    (¬(W.sx = 0 ∧ W.sy = 0) →
      (loadChunk f W r x y).1.sx = W.sx ∧
      (loadChunk f W r x y).1.sy = W.sy) := by
  unfold loadChunk
  rw [habs]
  simp only [Option.isSome_none, Bool.false_eq_true, if_false]
  constructor
  · rintro ⟨h1, h2⟩
    rw [h1, h2, Prod.mk.eta, spawnFold_zero]
  · intro hne
    rw [spawnFold_of_ne _ (W.sx, W.sy) hne]
    exact ⟨rfl, rfl⟩

/-- A field whose chunk (0, 0) has warm-plains grass at world cells (0, 0)
and (1, 0) and deep ocean everywhere else; fully deterministic (no random
draws). -/
def f9 : NoiseField := fun wx wy =>
  if (wx = 0 ∧ wy = 0) ∨ (wx = 1 ∧ wy = 0) then (0.7, 0.4, 0.8)
  else (0.1, 0.1, 0.5)

set_option maxRecDepth 4000 in
/-- Claim C9 counterexample: generating chunk (0, 0) of `f9` from a fresh
world, the first grass/sand/snow cell in scan order is (0, 0), yet the
world's spawn ends at (1, 0): the guard `if sx == 0 and sy == 0` treats
the first match as the unset sentinel and lets the next qualifying cell
overwrite it — first match does not win, and the once-set value was
changed by later cells of the very same scan. -/
theorem c9_cex :
    specFirstQualifying (genPairs f9 rngZero 0 0).1 = some (0, 0) ∧
    ((loadChunk f9 emptyWorld rngZero 0 0).1.sx,
      (loadChunk f9 emptyWorld rngZero 0 0).1.sy) = ((1 : Int), (0 : Int)) ∧
    ((1 : Int), (0 : Int)) ≠ ((0 : Int), (0 : Int)) := by
  with_unfolding_all decide

set_option maxRecDepth 4000 in
/-- Witness for the amended C9: from the open sentinel the latch takes the
first qualifying non-(0,0) cell — here (1, 0) — and a world whose spawn is
already (5, 6) keeps it across a fresh chunk generation. -/
theorem c9_spawn_rule_witness :
    ((loadChunk f9 emptyWorld rngZero 0 0).1.sx,
      (loadChunk f9 emptyWorld rngZero 0 0).1.sy) =
      (firstNZQualifying (genPairs f9 rngZero 0 0).1).getD (0, 0) ∧
    ((loadChunk f9 { emptyWorld with sx := 5, sy := 6 } rngZero 0 0).1.sx =
        (5 : Int) ∧
      (loadChunk f9 { emptyWorld with sx := 5, sy := 6 } rngZero 0 0).1.sy =
        (6 : Int)) :=
  ⟨(c9_spawn_rule f9 emptyWorld rngZero 0 0
      (by with_unfolding_all decide)).1 ⟨rfl, rfl⟩,
    (c9_spawn_rule f9 { emptyWorld with sx := 5, sy := 6 } rngZero 0 0
      (by with_unfolding_all decide)).2
      (by intro hc; exact absurd hc.1 (by with_unfolding_all decide))⟩

/-!
### Claim C10 — mob health across save/load -/

/-- `Player.move` phrased through projections (definitional). -/
theorem playerMove_eq (f : NoiseField) (W : World) (r : Rng) (mx my : Int) :
    playerMove f W r mx my =
      (if (mx - W.px) ≠ 0 then
        { (if (getTileW f W r mx my).2.2.solid = false then
            { (getTileW f W r mx my).1 with px := mx, py := my }
          else (getTileW f W r mx my).1) with
          pfacing := ((if (getTileW f W r mx my).2.2.solid = false then
              { (getTileW f W r mx my).1 with px := mx, py := my }
            else (getTileW f W r mx my).1).px + (mx - W.px),
            (if (getTileW f W r mx my).2.2.solid = false then
              { (getTileW f W r mx my).1 with px := mx, py := my }
            else (getTileW f W r mx my).1).py) }
      else if (my - W.py) ≠ 0 then
        { (if (getTileW f W r mx my).2.2.solid = false then
            { (getTileW f W r mx my).1 with px := mx, py := my }
          else (getTileW f W r mx my).1) with
          pfacing := ((if (getTileW f W r mx my).2.2.solid = false then
              { (getTileW f W r mx my).1 with px := mx, py := my }
            else (getTileW f W r mx my).1).px,
            (if (getTileW f W r mx my).2.2.solid = false then
              { (getTileW f W r mx my).1 with px := mx, py := my }
            else (getTileW f W r mx my).1).py + (my - W.py)) }
      else
        (if (getTileW f W r mx my).2.2.solid = false then
          { (getTileW f W r mx my).1 with px := mx, py := my }
        else (getTileW f W r mx my).1),
      (getTileW f W r mx my).2.1) := rfl

/-- `Player.move` never touches the entity list. -/
theorem playerMove_entities (f : NoiseField) (W : World) (r : Rng)
    (mx my : Int) : (playerMove f W r mx my).1.entities = W.entities := by
  have h1 : (getTileW f W r mx my).1.entities = W.entities := by
    rw [getTileW_eq]
    exact (loadChunk_proj f W r (mx.fdiv 8) (my.fdiv 8)).2.2.1
  rw [playerMove_eq]
  generalize hT : getTileW f W r mx my = T at h1 ⊢
  obtain ⟨W1, r1, t⟩ := T
  simp only at h1
  split <;> (try split) <;> (try split) <;> exact h1

/-- The world produced by `load` (definitional). -/
theorem loadGame_world (f : NoiseField) (W : World) (sd : SaveData)
    (r : Rng) :
    (loadGame f W sd r).1.1 =
      { (playerMove f (loadScalars W sd (rebuildMobs r sd.entities).1)
          (rebuildMobs r sd.entities).2 sd.pX sd.pY).1 with
        loaded := true } := rfl

theorem mobKindById_id : ∀ i < 2, (mobKindById i).1 = i := by decide

/-- The entity list rebuilt by `load`: kind ids and coordinates are the
stored ones, health is the catalog health of the kind. -/
theorem rebuildMobs_spec (es : List (Nat × Int × Int)) (r : Rng)
    (hids : ∀ e ∈ es, e.1 < 2) :
    ((rebuildMobs r es).1.map fun m => (m.id, m.x, m.y)) = es ∧
    ∀ m ∈ (rebuildMobs r es).1,
      m.id < 2 ∧ m.health = (mobKindById m.id).2 := by
  induction es generalizing r with
  | nil => exact ⟨rfl, by intro m hm; cases hm⟩
  | cons e es ih =>
      have he : e.1 < 2 := hids e (List.mem_cons_self e es)
      have hid : (mobKindById e.1).1 = e.1 := mobKindById_id e.1 he
      have ihr := ih ((rebuildMobs r [e]).2)
        (fun x hx => hids x (List.mem_cons_of_mem e hx))
      constructor
      · show ((mobKindById e.1).1, e.2.1, e.2.2) ::
          ((rebuildMobs ((rebuildMobs r [e]).2) es).1.map fun m =>
            (m.id, m.x, m.y)) = e :: es
        rw [hid, ihr.1]
      · intro m hm
        rcases List.mem_cons.mp hm with hhead | htail
        · subst hhead
          refine ⟨by rw [hid]; exact he, ?_⟩
          show (mobKindById e.1).2 = (mobKindById (mobKindById e.1).1).2
          rw [hid]
        · exact ihr.2 m htail

/-- Claim C10 (confirmed): mob health is not persisted.  `save` records
only each mob's kind id and coordinates; `load` rebuilds each mob by
cloning the catalog entry, so after `load(save(S))` every mob carries its
catalog default health — 20 for a pig — regardless of its health at save
time, while kind id and coordinates are restored exactly. -/
theorem c10_mob_health_reset (f : NoiseField) (W W0 : World) (r : Rng)
    (uticks : Nat) (hids : ∀ m ∈ W.entities, m.id < 2) :
    ((loadGame f W0 (saveGame W uticks) r).1.1.entities.map fun m =>
        (m.id, m.x, m.y)) =
      (W.entities.map fun m => (m.id, m.x, m.y)) ∧
    (∀ m ∈ (loadGame f W0 (saveGame W uticks) r).1.1.entities,
      m.health = (mobKindById m.id).2) ∧
    (∀ m ∈ (loadGame f W0 (saveGame W uticks) r).1.1.entities,
      m.id = 0 → m.health = 20) := by
  have hE : (loadGame f W0 (saveGame W uticks) r).1.1.entities =
      (rebuildMobs r (saveGame W uticks).entities).1 := by
    rw [loadGame_world]
    show (playerMove f
      (loadScalars W0 (saveGame W uticks)
        (rebuildMobs r (saveGame W uticks).entities).1)
      (rebuildMobs r (saveGame W uticks).entities).2
      (saveGame W uticks).pX (saveGame W uticks).pY).1.entities = _
    rw [playerMove_entities]
    rfl
  have hsave : (saveGame W uticks).entities =
      W.entities.map fun m => (m.id, m.x, m.y) := rfl
  have hids2 : ∀ e ∈ (saveGame W uticks).entities, e.1 < 2 := by
    rw [hsave]
    intro e he
    obtain ⟨m, hm, hme⟩ := List.mem_map.mp he
    rw [← hme]
    exact hids m hm
  have hspec := rebuildMobs_spec (saveGame W uticks).entities r hids2
  refine ⟨?_, ?_, ?_⟩
  · rw [hE, hspec.1, hsave]
  · intro m hm
    rw [hE] at hm
    exact (hspec.2 m hm).2
  · intro m hm hm0
    rw [hE] at hm
    have := (hspec.2 m hm).2
    rw [hm0] at this
    exact this

/-- Witness for C10: a pig saved with 3 health comes back with the catalog
default 20 at its saved position. -/
theorem c10_mob_health_reset_witness :
    ((loadGame fieldGrass emptyWorld
        (saveGame { worldSixteen with
          entities := [⟨0, 3, 0, 4, 2⟩] } 77) rngZero).1.1.entities.map
      fun m => (m.id, m.x, m.y)) =
      (({ worldSixteen with
          entities := [⟨0, 3, 0, 4, 2⟩] } : World).entities.map fun m =>
        (m.id, m.x, m.y)) ∧
    (∀ m ∈ (loadGame fieldGrass emptyWorld
        (saveGame { worldSixteen with
          entities := [⟨0, 3, 0, 4, 2⟩] } 77) rngZero).1.1.entities,
      m.health = (mobKindById m.id).2) ∧
    (∀ m ∈ (loadGame fieldGrass emptyWorld
        (saveGame { worldSixteen with
          entities := [⟨0, 3, 0, 4, 2⟩] } 77) rngZero).1.1.entities,
      m.id = 0 → m.health = 20) :=
  c10_mob_health_reset fieldGrass
    { worldSixteen with entities := [⟨0, 3, 0, 4, 2⟩] } emptyWorld rngZero 77
    (by with_unfolding_all decide)

/-!
### Claim C4 — persistence round-trip -/

/-- The observable content of a chunk for the round-trip contract: per
cell, tile id and solidity. -/
def gridObs (g : Chunk) : List (List (Nat × Bool)) :=
  g.map fun row => row.map fun t => (t.id, t.solid)

theorem tileById_id : ∀ i < 18, (tileById i).id = i := by
  with_unfolding_all decide

/-- `dictGet` commutes with a value-wise map of the association list. -/
theorem dictGet_map {α β : Type} (F : α → β) (l : List ((Int × Int) × α))
    (k : Int × Int) :
    dictGet k (l.map fun kv => (kv.1, F kv.2)) = (dictGet k l).map F := by
  induction l with
  | nil => rfl
  | cons kv rest ih =>
      obtain ⟨k0, v0⟩ := kv
      by_cases h : k0 = k <;> simp [dictGet, h, ih]

/-- A found binding is a member of the association list. -/
theorem dictGet_mem {α : Type} {l : List ((Int × Int) × α)}
    {k : Int × Int} {v : α} (h : dictGet k l = some v) : (k, v) ∈ l := by
  induction l with
  | nil => cases h
  | cons kv rest ih =>
      obtain ⟨k0, v0⟩ := kv
      by_cases hk : k0 = k
      · subst hk
        rw [dictGet, if_pos rfl] at h
        cases h
        exact List.mem_cons_self _ _
      · rw [dictGet, if_neg hk] at h
        exact List.mem_cons_of_mem _ (ih h)

/-- Collapsing a well-formed grid to ids and re-cloning from the catalog
preserves every cell's id and solidity. -/
theorem gridObs_roundtrip (g : Chunk)
    (h : ∀ row ∈ g, ∀ t ∈ row, t.id < 18 ∧ (tileById t.id).solid = t.solid) :
    gridObs ((g.map fun row => row.map Tile.id).map fun row =>
      row.map fun i => (tileById i).clone) = gridObs g := by
  unfold gridObs
  rw [List.map_map, List.map_map]
  apply List.map_congr_left
  intro row hrow
  show ((row.map Tile.id).map fun i => (tileById i).clone).map
    (fun t => (t.id, t.solid)) = row.map fun t => (t.id, t.solid)
  rw [List.map_map, List.map_map]
  apply List.map_congr_left
  intro t ht
  have hwf := h row hrow t ht
  show ((tileById t.id).clone.id, (tileById t.id).clone.solid) =
    (t.id, t.solid)
  unfold Tile.clone
  rw [tileById_id t.id hwf.1, hwf.2]

/-- A `load_chunk` on a chunk that is already present is a no-op. -/
theorem loadChunk_of_present {f : NoiseField} {W : World} {r : Rng}
    {x y : Int} (h : (dictGet (x, y) W.chunks).isSome = true) :
    loadChunk f W r x y = (W, r) := by
  unfold loadChunk
  rw [if_pos h]

/-- `player.initialize(world, player.x, player.y)` — a move onto the cell
the player already occupies — leaves the world untouched when the player's
chunk is materialised. -/
theorem playerMove_self (f : NoiseField) (W : World) (r : Rng)
    (h : (dictGet (W.px.fdiv 8, W.py.fdiv 8) W.chunks).isSome = true) :
    playerMove f W r W.px W.py = (W, r) := by
  have hl : loadChunk f W r (W.px.fdiv 8) (W.py.fdiv 8) = (W, r) :=
    loadChunk_of_present h
  rw [playerMove_eq, getTileW_eq, hl]
  rw [show ({ W with px := W.px, py := W.py } : World) = W from rfl]
  simp

/-- Claim C4 (confirmed): `load(save(S))` is observably identical to `S`
for every query of the round-trip contract — per loaded chunk the full
grid of tile ids and solidity flags, every entity's kind and position, the
spawn point, the seed, the permutation table, the player position, and the
tick counter — for any world whose tiles and mobs are catalog-consistent
(as every reachable world is), whose player chunk is materialised, and
which contains at least one of every tile kind and at least one mob.
Cosmetic sprite state is outside the model (re-rolled on load). -/
theorem c4_roundtrip (f : NoiseField) (W W0 : World) (r : Rng) (u : Nat)
    (hwf : ∀ kv ∈ W.chunks, ∀ row ∈ kv.2, ∀ t ∈ row,
      t.id < 18 ∧ (tileById t.id).solid = t.solid)
    (hmob : ∀ m ∈ W.entities, m.id < 2)
    (hplayer : (dictGet (W.px.fdiv 8, W.py.fdiv 8) W.chunks).isSome = true)
    (hall : ∀ i ∈ List.range 18, (W.chunks.any fun kv =>
      kv.2.any fun row => row.any fun t => t.id = i) = true)
    (hone : W.entities ≠ []) :
    (∀ k : Int × Int,
      (dictGet k (loadGame f W0 (saveGame W u) r).1.1.chunks).map gridObs =
        (dictGet k W.chunks).map gridObs) ∧
    ((loadGame f W0 (saveGame W u) r).1.1.entities.map fun m =>
        (m.id, m.x, m.y)) =
      (W.entities.map fun m => (m.id, m.x, m.y)) ∧
    (loadGame f W0 (saveGame W u) r).1.1.sx = W.sx ∧
    (loadGame f W0 (saveGame W u) r).1.1.sy = W.sy ∧
    (loadGame f W0 (saveGame W u) r).1.1.seed = W.seed ∧
    (loadGame f W0 (saveGame W u) r).1.1.perm = W.perm ∧
    (loadGame f W0 (saveGame W u) r).1.1.px = W.px ∧
    (loadGame f W0 (saveGame W u) r).1.1.py = W.py ∧
    (loadGame f W0 (saveGame W u) r).1.2 = u ∧
    (loadGame f W0 (saveGame W u) r).1.1.loaded = true := by
  have hchunkmap : ∀ k : Int × Int,
      dictGet k (rebuildChunks (saveGame W u).chunkIds) =
        ((dictGet k W.chunks).map fun g =>
          g.map fun row => row.map Tile.id).map fun rows =>
            rows.map fun row => row.map fun i => (tileById i).clone := by
    intro k
    show dictGet k (rebuildChunks
      (W.chunks.map fun kv => (kv.1, kv.2.map fun row => row.map Tile.id)))
      = _
    unfold rebuildChunks
    rw [List.map_map]
    rw [show ((fun kv : (Int × Int) × List (List Nat) =>
        (kv.1, kv.2.map fun row => row.map fun i => (tileById i).clone)) ∘
        (fun kv : (Int × Int) × Chunk =>
          (kv.1, kv.2.map fun row => row.map Tile.id))) =
      (fun kv : (Int × Int) × Chunk =>
        (kv.1, (kv.2.map fun row => row.map Tile.id).map fun row =>
          row.map fun i => (tileById i).clone)) from rfl]
    rw [dictGet_map (fun g : Chunk => (g.map fun row => row.map Tile.id).map
      fun row => row.map fun i => (tileById i).clone) W.chunks k]
    cases dictGet k W.chunks <;> rfl
  have hpres : (dictGet ((saveGame W u).pX.fdiv 8, (saveGame W u).pY.fdiv 8)
      (loadScalars W0 (saveGame W u)
        (rebuildMobs r (saveGame W u).entities).1).chunks).isSome = true := by
    show (dictGet (W.px.fdiv 8, W.py.fdiv 8)
      (rebuildChunks (saveGame W u).chunkIds)).isSome = true
    rw [hchunkmap]
    cases hc : dictGet (W.px.fdiv 8, W.py.fdiv 8) W.chunks with
    | none => rw [hc] at hplayer; cases hplayer
    | some g => rfl
  have hself := playerMove_self f
    (loadScalars W0 (saveGame W u) (rebuildMobs r (saveGame W u).entities).1)
    (rebuildMobs r (saveGame W u).entities).2 hpres
  have hfinal : (loadGame f W0 (saveGame W u) r).1.1 =
      { (loadScalars W0 (saveGame W u)
          (rebuildMobs r (saveGame W u).entities).1) with loaded := true } := by
    rw [loadGame_world]
    rw [show (playerMove f
        (loadScalars W0 (saveGame W u)
          (rebuildMobs r (saveGame W u).entities).1)
        (rebuildMobs r (saveGame W u).entities).2
        (saveGame W u).pX (saveGame W u).pY) =
      (playerMove f
        (loadScalars W0 (saveGame W u)
          (rebuildMobs r (saveGame W u).entities).1)
        (rebuildMobs r (saveGame W u).entities).2
        (loadScalars W0 (saveGame W u)
          (rebuildMobs r (saveGame W u).entities).1).px
        (loadScalars W0 (saveGame W u)
          (rebuildMobs r (saveGame W u).entities).1).py) from rfl]
    rw [hself]
  have hids2 : ∀ e ∈ (saveGame W u).entities, e.1 < 2 := by
    intro e he
    obtain ⟨m, hm, hme⟩ := List.mem_map.mp he
    rw [← hme]
    exact hmob m hm
  have hspec := rebuildMobs_spec (saveGame W u).entities r hids2
  refine ⟨?_, ?_, ?_, ?_, ?_, ?_, ?_, ?_, ?_, ?_⟩
  · intro k
    rw [hfinal]
    show (dictGet k (rebuildChunks (saveGame W u).chunkIds)).map gridObs = _
    rw [hchunkmap]
    cases hc : dictGet k W.chunks with
    | none => rfl
    | some g =>
        show some (gridObs ((g.map fun row => row.map Tile.id).map fun row =>
          row.map fun i => (tileById i).clone)) = some (gridObs g)
        rw [gridObs_roundtrip g (fun row hrow t ht =>
          hwf (k, g) (dictGet_mem hc) row hrow t ht)]
  · rw [hfinal]
    show ((rebuildMobs r (saveGame W u).entities).1.map fun m =>
      (m.id, m.x, m.y)) = _
    rw [hspec.1]
    rfl
  · rw [hfinal]; rfl
  · rw [hfinal]; rfl
  · rw [hfinal]; rfl
  · rw [hfinal]; rfl
  · rw [hfinal]; rfl
  · rw [hfinal]; rfl
  · rfl
  · rw [hfinal]

/-- A chunk containing at least one tile of every catalog kind (cell i
holds the kind with id i mod 18). -/
def allKindsGrid : Chunk := toGrid ((List.range 64).map fun i => tileById (i % 18))

/-- A world exercising every tile kind, one pig, a materialised player
chunk, and non-trivial scalars. -/
def c4world : World :=
  { emptyWorld with
    chunks := [((0, 0), allKindsGrid)]
    entities := [⟨0, 20, 0, 3, 4⟩]
    px := 1, py := 1, sx := 5, sy := 5
    seed := some 42, perm := [3, 1, 2], ticks := 9 }

/-- Witness for C4 at a concrete world containing every tile kind and one
mob: chunk (0,0)'s ids and solidity, the entity list, spawn, seed,
permutation, player position and tick counter all survive the round trip. -/
theorem c4_roundtrip_witness :
    (dictGet (0, 0)
        (loadGame fieldGrass emptyWorld (saveGame c4world 9)
          rngZero).1.1.chunks).map gridObs =
      (dictGet (0, 0) c4world.chunks).map gridObs ∧
    ((loadGame fieldGrass emptyWorld (saveGame c4world 9)
        rngZero).1.1.entities.map fun m => (m.id, m.x, m.y)) =
      (c4world.entities.map fun m => (m.id, m.x, m.y)) ∧
    (loadGame fieldGrass emptyWorld (saveGame c4world 9) rngZero).1.1.sx =
      c4world.sx ∧
    (loadGame fieldGrass emptyWorld (saveGame c4world 9) rngZero).1.1.sy =
      c4world.sy ∧
    (loadGame fieldGrass emptyWorld (saveGame c4world 9) rngZero).1.1.seed =
      c4world.seed ∧
    (loadGame fieldGrass emptyWorld (saveGame c4world 9) rngZero).1.1.perm =
      c4world.perm ∧
    (loadGame fieldGrass emptyWorld (saveGame c4world 9) rngZero).1.1.px =
      c4world.px ∧
    (loadGame fieldGrass emptyWorld (saveGame c4world 9) rngZero).1.1.py =
      c4world.py ∧
    (loadGame fieldGrass emptyWorld (saveGame c4world 9) rngZero).1.2 = 9 ∧
    (loadGame fieldGrass emptyWorld (saveGame c4world 9)
      rngZero).1.1.loaded = true := by
  have h := c4_roundtrip fieldGrass c4world emptyWorld rngZero 9
    (by with_unfolding_all decide) (by with_unfolding_all decide)
    (by with_unfolding_all decide) (by with_unfolding_all decide)
    (by with_unfolding_all decide)
  exact ⟨h.1 (0, 0), h.2.1, h.2.2.1, h.2.2.2.1, h.2.2.2.2.1, h.2.2.2.2.2.1,
    h.2.2.2.2.2.2.1, h.2.2.2.2.2.2.2.1, h.2.2.2.2.2.2.2.2.1,
    h.2.2.2.2.2.2.2.2.2⟩

/-!
### Claim C7 — the pig-spawn attempt -/

/-- The four raw draws of the spawn attempt, in source order. -/
def drawD (r : Rng) : Nat := (randint 8 16 r).1

def drawAng (r : Rng) : Nat := (randint 0 359 (randint 8 16 r).2).1

def drawB1 (r : Rng) : Nat :=
  (randint 0 1 (randint 0 359 (randint 8 16 r).2).2).1

def drawB2 (r : Rng) : Nat :=
  (randint 0 1 (randint 0 1 (randint 0 359 (randint 8 16 r).2).2).2).1

/-- The stream after the four spawn draws. -/
def rngAfterSpawnDraws (r : Rng) : Rng :=
  (randint 0 1 (randint 0 1 (randint 0 359 (randint 8 16 r).2).2).2).2

/-- The candidate cell at which `World.update` attempts the pig spawn. -/
def spawnCand (trig : Trig) (W : World) (r : Rng) : Int × Int :=
  spawnPoint W.px W.py (spawnOffset trig (drawAng r) (drawD r))
    (drawB1 r) (drawB2 r)

/-- The spawn attempt phrased through the named draws (definitional). -/
theorem spawnPhase_eq (f : NoiseField) (trig : Trig) (W : World) (r : Rng) :
    spawnPhase f trig W r =
      if W.entities.any fun m =>
          m.x = (spawnCand trig W r).1 && m.y = (spawnCand trig W r).2
      then (W, rngAfterSpawnDraws r)
      else
        spawnMob f W (randint 0 3 (rngAfterSpawnDraws r)).2
          (spawnCand trig W r).1 (spawnCand trig W r).2
          ⟨0, 20, (randint 0 3 (rngAfterSpawnDraws r)).1, 0, 0⟩ := rfl

/-- Claim C7 as amended: on every tick divisible by 4, `update` runs the
spawn attempt; the drawn tile distance d lies in [8, 16] but the code
multiplies it by `TILE_SIZE = 16`, so the exact (pre-truncation) offset
vector laid onto the player position has squared norm (16 d)², i.e. the
candidate sits on a circle of radius 128 to 256 tiles — not 8 to 16; the
attempt proceeds (cloning one catalog pig and handing it to `spawn_mob`)
only when no existing mob occupies the exact candidate cell, and otherwise
leaves the world unchanged. -/
theorem c7_spawn_distance (f : NoiseField) (trig : Trig) (W : World)
    (r : Rng) (ticks : Nat)
    (htrig : ∀ a, (trig a).1 ^ 2 + (trig a).2 ^ 2 = 1)
    (hticks : ticks % 4 = 0) :
    update f trig W r ticks =
      postSpawnPhases f
        (spawnPhase f trig { W with ticks := ticks % 24000 } r) ticks ∧
    8 ≤ drawD r ∧ drawD r ≤ 16 ∧
    (spawnOffset trig (drawAng r) (drawD r)).1 ^ 2 +
        (spawnOffset trig (drawAng r) (drawD r)).2 ^ 2 =
      ((drawD r : Rat) * 16) ^ 2 ∧
    (128 : Rat) ^ 2 ≤ (spawnOffset trig (drawAng r) (drawD r)).1 ^ 2 +
        (spawnOffset trig (drawAng r) (drawD r)).2 ^ 2 ∧
    (spawnOffset trig (drawAng r) (drawD r)).1 ^ 2 +
        (spawnOffset trig (drawAng r) (drawD r)).2 ^ 2 ≤ (256 : Rat) ^ 2 ∧
    ((W.entities.any fun m =>
        m.x = (spawnCand trig W r).1 && m.y = (spawnCand trig W r).2) =
          true →
      spawnPhase f trig W r = (W, rngAfterSpawnDraws r)) ∧
    ((W.entities.any fun m =>
        m.x = (spawnCand trig W r).1 && m.y = (spawnCand trig W r).2) =
          false →
      spawnPhase f trig W r =
        spawnMob f W (randint 0 3 (rngAfterSpawnDraws r)).2
          (spawnCand trig W r).1 (spawnCand trig W r).2
          ⟨0, 20, (randint 0 3 (rngAfterSpawnDraws r)).1, 0, 0⟩) := by
  have hd8 : 8 ≤ drawD r := by
    unfold drawD randint
    exact Nat.le_add_right 8 _
  have hd16 : drawD r ≤ 16 := by
    unfold drawD randint
    have : r 0 % 9 < 9 := Nat.mod_lt _ (by norm_num)
    omega
  have hcast8 : (8 : Rat) ≤ (drawD r : Rat) := by exact_mod_cast hd8
  have hcast16 : (drawD r : Rat) ≤ 16 := by exact_mod_cast hd16
  have hnorm : (spawnOffset trig (drawAng r) (drawD r)).1 ^ 2 +
      (spawnOffset trig (drawAng r) (drawD r)).2 ^ 2 =
      ((drawD r : Rat) * 16) ^ 2 := by
    unfold spawnOffset
    have ht := htrig (drawAng r)
    have expand : ((trig (drawAng r)).1 * ((drawD r : Rat) * 16)) ^ 2 +
        ((trig (drawAng r)).2 * ((drawD r : Rat) * 16)) ^ 2 =
        ((trig (drawAng r)).1 ^ 2 + (trig (drawAng r)).2 ^ 2) *
          ((drawD r : Rat) * 16) ^ 2 := by ring
    rw [expand, ht, one_mul]
  refine ⟨?_, hd8, hd16, hnorm, ?_, ?_, ?_, ?_⟩
  · unfold update
    rw [if_pos hticks]
  · rw [hnorm]
    have h1 : (128 : Rat) ≤ (drawD r : Rat) * 16 := by linarith
    exact pow_le_pow_left (by norm_num) h1 2
  · rw [hnorm]
    have h1 : (drawD r : Rat) * 16 ≤ 256 := by linarith
    exact pow_le_pow_left (by positivity) h1 2
  · intro hocc
    rw [spawnPhase_eq, if_pos hocc]
  · intro hocc
    rw [spawnPhase_eq, if_neg (by rw [hocc]; exact Bool.false_ne_true)]

/-- The axis-aligned trig table cos = 1, sin = 0 (exact for angle 0, and
Pythagorean for every angle). -/
def trig0 : Trig := fun _ => (1, 0)

/-- Claim C7 counterexample: at tick 0 with player at the origin, the
update really spawns the pig — at (128, 0), squared distance 16384 from
the player, far outside the claimed 8-to-16-tile circle (16² = 256):
`spawn_distance = randint(8, 16) * TILE_SIZE` mixes pixel scaling into
tile coordinates. -/
theorem c7_cex :
    (update fieldGrass trig0 emptyWorld rngZero 0).1.entities =
      [⟨0, 20, 0, 128, 0⟩] ∧
    (128 - emptyWorld.px) ^ 2 + (0 - emptyWorld.py) ^ 2 = (16384 : Int) ∧
    ¬((16384 : Int) ≤ 16 ^ 2) := by
  refine ⟨?_, by with_unfolding_all decide, by with_unfolding_all decide⟩
  with_unfolding_all decide

/-- Witness for the amended C7 at tick 0, the axis-aligned trig table and
the all-zero stream. -/
theorem c7_spawn_distance_witness :
    (update fieldGrass trig0 emptyWorld rngZero 0 =
      postSpawnPhases fieldGrass
        (spawnPhase fieldGrass trig0
          { emptyWorld with ticks := 0 % 24000 } rngZero) 0) ∧
    8 ≤ drawD rngZero ∧ drawD rngZero ≤ 16 ∧
    (spawnOffset trig0 (drawAng rngZero) (drawD rngZero)).1 ^ 2 +
        (spawnOffset trig0 (drawAng rngZero) (drawD rngZero)).2 ^ 2 =
      ((drawD rngZero : Rat) * 16) ^ 2 ∧
    (128 : Rat) ^ 2 ≤
      (spawnOffset trig0 (drawAng rngZero) (drawD rngZero)).1 ^ 2 +
        (spawnOffset trig0 (drawAng rngZero) (drawD rngZero)).2 ^ 2 ∧
    (spawnOffset trig0 (drawAng rngZero) (drawD rngZero)).1 ^ 2 +
        (spawnOffset trig0 (drawAng rngZero) (drawD rngZero)).2 ^ 2 ≤
      (256 : Rat) ^ 2 ∧
    ((emptyWorld.entities.any fun m =>
        m.x = (spawnCand trig0 emptyWorld rngZero).1 &&
          m.y = (spawnCand trig0 emptyWorld rngZero).2) = true →
      spawnPhase fieldGrass trig0 emptyWorld rngZero =
        (emptyWorld, rngAfterSpawnDraws rngZero)) ∧
    ((emptyWorld.entities.any fun m =>
        m.x = (spawnCand trig0 emptyWorld rngZero).1 &&
          m.y = (spawnCand trig0 emptyWorld rngZero).2) = false →
      spawnPhase fieldGrass trig0 emptyWorld rngZero =
        spawnMob fieldGrass emptyWorld
          (randint 0 3 (rngAfterSpawnDraws rngZero)).2
          (spawnCand trig0 emptyWorld rngZero).1
          (spawnCand trig0 emptyWorld rngZero).2
          ⟨0, 20, (randint 0 3 (rngAfterSpawnDraws rngZero)).1, 0, 0⟩) :=
  c7_spawn_distance fieldGrass trig0 emptyWorld rngZero 0
    (fun _ => by show (1 : Rat) ^ 2 + (0 : Rat) ^ 2 = 1; norm_num) rfl

/-!
### Claim C6 — initialize -/

/-- The tile stored at world coordinates (x, y), read without triggering
generation: `None` when the chunk is absent. -/
def tileAtD (W : World) (x y : Int) : Option Tile :=
  (dictGet (x.fdiv 8, y.fdiv 8) W.chunks).map fun g =>
    cellAt g (y.fmod 8).toNat (x.fmod 8).toNat

theorem loadChunksFold_cons (f : NoiseField) (st : World × Rng)
    (p : Int × Int) (ps : List (Int × Int)) :
    loadChunksFold f st (p :: ps) =
      loadChunksFold f (loadChunk f st.1 st.2 p.1 p.2) ps := rfl

/-- Bindings survive the whole window fold untouched. -/
theorem loadChunksFold_preserves (f : NoiseField) (ps : List (Int × Int)) :
    ∀ (st : World × Rng) (k : Int × Int) (g : Chunk),
      dictGet k st.1.chunks = some g →
      dictGet k (loadChunksFold f st ps).1.chunks = some g := by
  induction ps with
  | nil => intro st k g h; exact h
  | cons p ps ih =>
      intro st k g h
      rw [loadChunksFold_cons]
      exact ih _ k g (loadChunk_preserves h)

/-- `load_chunk` touches no chunk-map key other than its own. -/
theorem loadChunk_chunks_other {f : NoiseField} {W : World} {r : Rng}
    {x y : Int} {k : Int × Int} (h : k ≠ (x, y)) :
    dictGet k (loadChunk f W r x y).1.chunks = dictGet k W.chunks := by
  unfold loadChunk
  split
  · rfl
  · simp only []
    rw [dictGet_dictPut_ne _ _ h]

/-- The window fold adds no chunk-map key outside its list. -/
theorem loadChunksFold_chunks_other (f : NoiseField)
    (ps : List (Int × Int)) :
    ∀ (st : World × Rng) (k : Int × Int), k ∉ ps →
      dictGet k (loadChunksFold f st ps).1.chunks =
        dictGet k st.1.chunks := by
  induction ps with
  | nil => intro st k _; rfl
  | cons p ps ih =>
      intro st k hk
      rw [loadChunksFold_cons]
      rw [ih _ k fun h => hk (List.mem_cons_of_mem p h)]
      apply loadChunk_chunks_other
      intro he
      apply hk
      rw [he]
      exact List.mem_cons_self _ _

theorem loadChunksFold_present_mono (f : NoiseField) (ps : List (Int × Int))
    (st : World × Rng) (k : Int × Int)
    (h : (dictGet k st.1.chunks).isSome = true) :
    (dictGet k (loadChunksFold f st ps).1.chunks).isSome = true := by
  obtain ⟨g, hg⟩ := Option.isSome_iff_exists.mp h
  rw [loadChunksFold_preserves f ps st k g hg]
  rfl

/-- Every chunk of the window is present after the fold. -/
theorem loadChunksFold_ensures (f : NoiseField) (ps : List (Int × Int)) :
    ∀ (st : World × Rng) (p : Int × Int), p ∈ ps →
      (dictGet p (loadChunksFold f st ps).1.chunks).isSome = true := by
  induction ps with
  | nil => intro st p hp; cases hp
  | cons q ps ih =>
      intro st p hp
      rw [loadChunksFold_cons]
      rcases List.mem_cons.mp hp with hq | hmem
      · subst hq
        apply loadChunksFold_present_mono
        exact loadChunk_self_present f st.1 st.2 p.1 p.2
      · exact ih _ p hmem

/-- The window fold touches only the chunk map and the spawn point. -/
theorem loadChunksFold_scalars (f : NoiseField) (ps : List (Int × Int)) :
    ∀ st : World × Rng,
      (loadChunksFold f st ps).1.seed = st.1.seed ∧
      (loadChunksFold f st ps).1.perm = st.1.perm ∧
      (loadChunksFold f st ps).1.entities = st.1.entities ∧
      (loadChunksFold f st ps).1.px = st.1.px ∧
      (loadChunksFold f st ps).1.py = st.1.py ∧
      (loadChunksFold f st ps).1.loaded = st.1.loaded := by
  induction ps with
  | nil => intro st; exact ⟨rfl, rfl, rfl, rfl, rfl, rfl⟩
  | cons p ps ih =>
      intro st
      rw [loadChunksFold_cons]
      have h1 := ih (loadChunk f st.1 st.2 p.1 p.2)
      have h2 := loadChunk_proj f st.1 st.2 p.1 p.2
      exact ⟨h1.1.trans h2.1, h1.2.1.trans h2.2.1,
        h1.2.2.1.trans h2.2.2.1, h1.2.2.2.1.trans h2.2.2.2.2.1,
        h1.2.2.2.2.1.trans h2.2.2.2.2.2.1,
        h1.2.2.2.2.2.trans h2.2.2.2.2.2.2.2.2.2.2.2⟩

theorem lookup_mem {l : List (String × Tile)} {s : String} {t : Tile}
    (h : l.lookup s = some t) : t ∈ l.map Prod.snd := by
  induction l with
  | nil => cases h
  | cons kv rest ih =>
      rw [List.lookup] at h
      cases heq : s == kv.1 with
      | true => rw [heq] at h; cases h; exact List.mem_cons_self _ _
      | false => rw [heq] at h; exact List.mem_cons_of_mem _ (ih h)

/-- Every name lookup lands in the catalog (the fallback is the "empty"
entry). -/
theorem tilesByName_mem (s : String) :
    tilesByName s ∈ tileDefs.map Prod.snd := by
  unfold tilesByName
  cases h : tileDefs.lookup s with
  | none => with_unfolding_all decide
  | some t => exact lookup_mem h

theorem mem_ite {α : Type} {L : List α} {c : Prop} [Decidable c] {x y : α}
    (hx : x ∈ L) (hy : y ∈ L) : (if c then x else y) ∈ L := by
  split <;> assumption

/-- Every tile produced by the biome classifier is a catalog clone. -/
theorem genCell_mem_catalog (f : NoiseField) (r : Rng) (wx wy : Int) :
    (genCell f r wx wy).1 ∈ tileDefs.map Prod.snd := by
  delta genCell
  dsimp only
  simp only [apply_ite (@Prod.fst Tile Rng)]
  repeat first | exact tilesByName_mem _ | apply mem_ite

theorem genCellsOn_mem_catalog (f : NoiseField) (cs : List (Int × Int)) :
    ∀ (r : Rng) (t : Tile), t ∈ (genCellsOn f cs r).1 →
      t ∈ tileDefs.map Prod.snd := by
  induction cs with
  | nil => intro r t ht; cases ht
  | cons c cs ih =>
      intro r t ht
      rw [show (genCellsOn f (c :: cs) r).1 =
        (genCell f r c.1 c.2).1 ::
          (genCellsOn f cs (genCell f r c.1 c.2).2).1 from rfl] at ht
      rcases List.mem_cons.mp ht with hh | hmem
      · rw [hh]
        exact genCell_mem_catalog f r c.1 c.2
      · exact ih _ t hmem

/-- In the catalog, grass, sand and snow are the non-solid kinds 7, 4, 15. -/
theorem catalog_qual_solid :
    ∀ t ∈ tileDefs.map Prod.snd, t.id ∈ [7, 4, 15] → t.solid = false := by
  with_unfolding_all decide

theorem genCellsOn_length (f : NoiseField) (cs : List (Int × Int)) :
    ∀ r : Rng, (genCellsOn f cs r).1.length = cs.length := by
  induction cs with
  | nil => intro r; rfl
  | cons c cs ih =>
      intro r
      rw [show (genCellsOn f (c :: cs) r).1 =
        (genCell f r c.1 c.2).1 ::
          (genCellsOn f cs (genCell f r c.1 c.2).2).1 from rfl]
      rw [List.length_cons, ih]
      rfl

/-- What a hit of the latching scan means: a member pair with a qualifying
tile and non-sentinel coordinates. -/
theorem firstNZQualifying_mem {l : List ((Int × Int) × Tile)}
    {c : Int × Int} (h : firstNZQualifying l = some c) :
    ∃ p ∈ l, p.1 = c ∧ p.2.id ∈ [7, 4, 15] ∧ c ≠ (0, 0) := by
  induction l with
  | nil => cases h
  | cons q l ih =>
      rw [firstNZQualifying] at h
      split at h
      · rename_i hq
        cases h
        exact ⟨q, List.mem_cons_self q l, rfl, hq.1, hq.2⟩
      · obtain ⟨p, hp, h1, h2, h3⟩ := ih h
        exact ⟨p, List.mem_cons_of_mem q hp, h1, h2, h3⟩

theorem scanCoords_length (x y : Int) : (scanCoords x y).length = 64 := by
  simp [scanCoords]

theorem fdiv8_localize (x w : Int) (h0 : 0 ≤ w) (h8 : w < 8) :
    (x * 8 + w).fdiv 8 = x := by
  rw [Int.fdiv_eq_ediv _ (by norm_num)]
  omega

theorem fmod8_localize (x w : Int) (h0 : 0 ≤ w) (h8 : w < 8) :
    (x * 8 + w).fmod 8 = w := by
  rw [Int.fmod_eq_emod _ (by norm_num)]
  omega

/-- Where the latched spawn cell of a fresh chunk lives: inside that chunk,
off the sentinel, with a qualifying non-solid tile at its local offsets in
the generated grid. -/
theorem genPairs_spawn_tile (f : NoiseField) (r : Rng) (x y : Int)
    (c : Int × Int) (h : firstNZQualifying (genPairs f r x y).1 = some c) :
    c ≠ (0, 0) ∧ c.1.fdiv 8 = x ∧ c.2.fdiv 8 = y ∧
    (cellAt (toGrid ((genPairs f r x y).1.map Prod.snd))
        (c.2.fmod 8).toNat (c.1.fmod 8).toNat).id ∈ [7, 4, 15] ∧
    (cellAt (toGrid ((genPairs f r x y).1.map Prod.snd))
        (c.2.fmod 8).toNat (c.1.fmod 8).toNat).solid = false := by
  obtain ⟨p, hmem, hp1, hq, hne⟩ := firstNZQualifying_mem h
  have hlen : (genCellsOn f (scanCoords x y) r).1.length = 64 := by
    rw [genCellsOn_length, scanCoords_length]
  have hzip : (genPairs f r x y).1 =
      (scanCoords x y).zip (genCellsOn f (scanCoords x y) r).1 := rfl
  rw [hzip] at hmem
  obtain ⟨i, hi, hget⟩ := List.mem_iff_getElem.mp hmem
  have hi64 : i < 64 := by
    rw [List.length_zip, scanCoords_length, hlen] at hi
    omega
  rw [List.getElem_zip] at hget
  have hcoord : (scanCoords x y).get ⟨i, by rw [scanCoords_length]; omega⟩ =
      (x * 8 + ((i % 8 : Nat) : Int), y * 8 + ((i / 8 : Nat) : Int)) := by
    unfold scanCoords
    simp
  have hget1 : p.1 = (x * 8 + ((i % 8 : Nat) : Int),
      y * 8 + ((i / 8 : Nat) : Int)) := by
    rw [← hget, ← hcoord]
    rfl
  have hc : c = (x * 8 + ((i % 8 : Nat) : Int),
      y * 8 + ((i / 8 : Nat) : Int)) := by rw [← hp1, hget1]
  have hw0 : (0 : Int) ≤ ((i % 8 : Nat) : Int) := Int.natCast_nonneg _
  have hw8 : ((i % 8 : Nat) : Int) < 8 := by
    have : i % 8 < 8 := Nat.mod_lt _ (by norm_num)
    exact_mod_cast this
  have hh0 : (0 : Int) ≤ ((i / 8 : Nat) : Int) := Int.natCast_nonneg _
  have hh8 : ((i / 8 : Nat) : Int) < 8 := by
    have : i / 8 < 8 := Nat.div_lt_of_lt_mul (by omega)
    exact_mod_cast this
  have hdx : c.1.fdiv 8 = x := by rw [hc]; exact fdiv8_localize x _ hw0 hw8
  have hdy : c.2.fdiv 8 = y := by rw [hc]; exact fdiv8_localize y _ hh0 hh8
  have hmx : (c.1.fmod 8).toNat = i % 8 := by
    rw [hc]
    show ((x * 8 + ((i % 8 : Nat) : Int)).fmod 8).toNat = i % 8
    rw [fmod8_localize x _ hw0 hw8, Int.toNat_natCast]
  have hmy : (c.2.fmod 8).toNat = i / 8 := by
    rw [hc]
    show ((y * 8 + ((i / 8 : Nat) : Int)).fmod 8).toNat = i / 8
    rw [fmod8_localize y _ hh0 hh8, Int.toNat_natCast]
  have hsnd : ((scanCoords x y).zip
      (genCellsOn f (scanCoords x y) r).1).map Prod.snd =
      (genCellsOn f (scanCoords x y) r).1 :=
    List.map_snd_zip _ _ (by rw [hlen, scanCoords_length])
  have hcell : cellAt (toGrid ((genPairs f r x y).1.map Prod.snd))
      (c.2.fmod 8).toNat (c.1.fmod 8).toNat = p.2 := by
    rw [hzip, hsnd, hmx, hmy]
    unfold toGrid
    rw [cellAt_mapGrid _ (by omega : i / 8 < 8) (by omega : i % 8 < 8)]
    have hidx : i / 8 * 8 + i % 8 = i := by omega
    rw [hidx]
    rw [List.getD_eq_getElem?_getD,
      List.getElem?_eq_getElem (by rw [hlen]; omega)]
    rw [← hget]
    rfl
  have hcat : p.2 ∈ tileDefs.map Prod.snd := by
    have hpm : p.2 ∈ (genCellsOn f (scanCoords x y) r).1 := by
      rw [← hget]
      exact List.getElem_mem _
    exact genCellsOn_mem_catalog f (scanCoords x y) r p.2 hpm
  refine ⟨hne, hdx, hdy, ?_, ?_⟩
  · rw [hcell]
    exact hq
  · rw [hcell]
    exact catalog_qual_solid p.2 hcat hq

/-- `load_chunk` on an absent chunk, written out (generation plus spawn
fold plus insertion). -/
theorem loadChunk_of_absent {f : NoiseField} {W : World} {r : Rng}
    {x y : Int} (h : dictGet (x, y) W.chunks = none) :
    loadChunk f W r x y =
      ({ W with
          chunks := (dictPut (x, y)
            (toGrid ((genPairs f r x y).1.map Prod.snd)) W.chunks)
          sx := ((genPairs f r x y).1.foldl spawnUpd (W.sx, W.sy)).1
          sy := ((genPairs f r x y).1.foldl spawnUpd (W.sx, W.sy)).2 },
        (genPairs f r x y).2) := by
  unfold loadChunk
  rw [h]
  rfl

/-- The spawn-point invariant: either still the unset sentinel, or it sits
on a materialised, qualifying, non-solid tile. -/
def SpawnInv (W : World) : Prop :=
  (W.sx = 0 ∧ W.sy = 0) ∨
  ∃ t, tileAtD W W.sx W.sy = some t ∧ t.id ∈ [7, 4, 15] ∧ t.solid = false

set_option maxRecDepth 8000 in
theorem loadChunk_spawnInv (f : NoiseField) (W : World) (r : Rng)
    (x y : Int) (h : SpawnInv W) : SpawnInv (loadChunk f W r x y).1 := by
  by_cases hp : dictGet (x, y) W.chunks = none
  · rw [loadChunk_of_absent hp]
    by_cases hz : W.sx = 0 ∧ W.sy = 0
    · have hfold : (genPairs f r x y).1.foldl spawnUpd (W.sx, W.sy) =
          (firstNZQualifying (genPairs f r x y).1).getD (0, 0) := by
        rw [hz.1, hz.2]
        exact spawnFold_zero _
      cases hfq : firstNZQualifying (genPairs f r x y).1 with
      | none =>
          left
          constructor
          · show ((genPairs f r x y).1.foldl spawnUpd (W.sx, W.sy)).1 = 0
            rw [hfold, hfq]
            rfl
          · show ((genPairs f r x y).1.foldl spawnUpd (W.sx, W.sy)).2 = 0
            rw [hfold, hfq]
            rfl
      | some c =>
          right
          obtain ⟨hne, hdx, hdy, hid, hsol⟩ := genPairs_spawn_tile f r x y c hfq
          have hsfold : (genPairs f r x y).1.foldl spawnUpd (W.sx, W.sy)
              = c := by rw [hfold, hfq]; rfl
          refine ⟨cellAt (toGrid ((genPairs f r x y).1.map Prod.snd))
            (c.2.fmod 8).toNat (c.1.fmod 8).toNat, ?_, hid, hsol⟩
          show (dictGet ((((genPairs f r x y).1.foldl spawnUpd
              (W.sx, W.sy)).1).fdiv 8,
              (((genPairs f r x y).1.foldl spawnUpd (W.sx, W.sy)).2).fdiv 8)
            (dictPut (x, y) (toGrid ((genPairs f r x y).1.map Prod.snd))
              W.chunks)).map _ = _
          rw [hsfold, hdx, hdy, dictGet_dictPut_self]
          rfl
    · have hfold := spawnFold_of_ne (genPairs f r x y).1 (W.sx, W.sy) hz
      rcases h with hzz | ⟨t, ht, hq, hs⟩
      · exact absurd hzz hz
      · right
        refine ⟨t, ?_, hq, hs⟩
        show (dictGet ((((genPairs f r x y).1.foldl spawnUpd
            (W.sx, W.sy)).1).fdiv 8,
            (((genPairs f r x y).1.foldl spawnUpd (W.sx, W.sy)).2).fdiv 8)
          (dictPut (x, y) (toGrid ((genPairs f r x y).1.map Prod.snd))
            W.chunks)).map _ = some t
        rw [hfold]
        unfold tileAtD at ht
        cases hg : dictGet (W.sx.fdiv 8, W.sy.fdiv 8) W.chunks with
        | none => rw [hg] at ht; cases ht
        | some g =>
            have hkne : ((W.sx.fdiv 8, W.sy.fdiv 8) : Int × Int) ≠ (x, y) := by
              intro he
              rw [he, hp] at hg
              cases hg
            show (dictGet (W.sx.fdiv 8, W.sy.fdiv 8)
              (dictPut (x, y) _ W.chunks)).map _ = some t
            rw [dictGet_dictPut_ne _ _ hkne, hg]
            rw [hg] at ht
            exact ht
  · have hps : (dictGet (x, y) W.chunks).isSome = true := by
      cases hd : dictGet (x, y) W.chunks
      · exact absurd hd hp
      · rfl
    rw [loadChunk_of_present hps]
    exact h

theorem loadChunksFold_spawnInv (f : NoiseField) (ps : List (Int × Int)) :
    ∀ st : World × Rng, SpawnInv st.1 →
      SpawnInv (loadChunksFold f st ps).1 := by
  induction ps with
  | nil => intro st h; exact h
  | cons p ps ih =>
      intro st h
      rw [loadChunksFold_cons]
      exact ih _ (loadChunk_spawnInv f st.1 st.2 p.1 p.2 h)

/-- A successful move: target chunk materialised and target tile
non-solid; the player lands there and nothing else changes (except the
facing cell). -/
theorem playerMove_to (f : NoiseField) (W : World) (r : Rng) (mx my : Int)
    (hpres : (dictGet (mx.fdiv 8, my.fdiv 8) W.chunks).isSome = true)
    (hns : ∀ t, tileAtD W mx my = some t → t.solid = false) :
    (playerMove f W r mx my).1.px = mx ∧
    (playerMove f W r mx my).1.py = my ∧
    (playerMove f W r mx my).1.chunks = W.chunks ∧
    (playerMove f W r mx my).1.sx = W.sx ∧
    (playerMove f W r mx my).1.sy = W.sy ∧
    (playerMove f W r mx my).1.seed = W.seed ∧
    (playerMove f W r mx my).1.perm = W.perm ∧
    (playerMove f W r mx my).1.loaded = W.loaded := by
  have hl : loadChunk f W r (mx.fdiv 8) (my.fdiv 8) = (W, r) :=
    loadChunk_of_present hpres
  obtain ⟨g, hg⟩ := Option.isSome_iff_exists.mp hpres
  have hsolid : (cellAt g (my.fmod 8).toNat (mx.fmod 8).toNat).solid =
      false := by
    apply hns
    unfold tileAtD
    rw [hg]
    rfl
  rw [playerMove_eq, getTileW_eq, hl]
  dsimp only
  rw [hg]
  simp only [Option.getD_some]
  simp only [hsolid, eq_self_iff_true, ite_true]
  split <;> (try split) <;>
    exact ⟨rfl, rfl, rfl, rfl, rfl, rfl, rfl, rfl⟩

theorem windowPairs_mem (xp yp cx cy : Int) (h1 : xp - 3 ≤ cx)
    (h2 : cx ≤ xp + 2) (h3 : yp - 3 ≤ cy) (h4 : cy ≤ yp + 2) :
    (cx, cy) ∈ windowPairs xp yp := by
  have hxlist : (List.range 6).map (fun i : Nat => xp - 3 + (i : Int)) =
      [xp - 3, xp - 2, xp - 1, xp, xp + 1, xp + 2] := by
    simp only [List.range_succ, List.range_zero, List.map_append,
      List.map_cons, List.map_nil, List.nil_append, List.cons_append,
      List.cons.injEq, and_true, List.append_nil]
    omega
  have hylist : (List.range 6).map (fun j : Nat => yp - 3 + (j : Int)) =
      [yp - 3, yp - 2, yp - 1, yp, yp + 1, yp + 2] := by
    simp only [List.range_succ, List.range_zero, List.map_append,
      List.map_cons, List.map_nil, List.nil_append, List.cons_append,
      List.cons.injEq, and_true, List.append_nil]
    omega
  refine List.mem_flatMap.mpr ⟨cx, ?_, ?_⟩
  · rw [hxlist]
    have hc : cx = xp - 3 ∨ cx = xp - 2 ∨ cx = xp - 1 ∨ cx = xp ∨
        cx = xp + 1 ∨ cx = xp + 2 := by omega
    rcases hc with h | h | h | h | h | h <;> subst h <;> simp
  · rw [hylist]
    have hc : cy = yp - 3 ∨ cy = yp - 2 ∨ cy = yp - 1 ∨ cy = yp ∨
        cy = yp + 1 ∨ cy = yp + 2 := by omega
    rcases hc with h | h | h | h | h | h <;> subst h <;> simp

/-- `initialize`, written out (definitional). -/
theorem initWorld_eq (f : NoiseField) (W : World) (newPerm : List Nat)
    (r : Rng) (ws : Int) :
    initWorld f W newPerm r ws =
      ({ (playerMove f
          (loadChunksFold f ({ W with seed := some ws, perm := newPerm }, r)
            (windowPairs (W.px.fdiv 8) (W.py.fdiv 8))).1
          (loadChunksFold f ({ W with seed := some ws, perm := newPerm }, r)
            (windowPairs (W.px.fdiv 8) (W.py.fdiv 8))).2
          (loadChunksFold f ({ W with seed := some ws, perm := newPerm }, r)
            (windowPairs (W.px.fdiv 8) (W.py.fdiv 8))).1.sx
          (loadChunksFold f ({ W with seed := some ws, perm := newPerm }, r)
            (windowPairs (W.px.fdiv 8) (W.py.fdiv 8))).1.sy).1 with
        loaded := true },
      (playerMove f
          (loadChunksFold f ({ W with seed := some ws, perm := newPerm }, r)
            (windowPairs (W.px.fdiv 8) (W.py.fdiv 8))).1
          (loadChunksFold f ({ W with seed := some ws, perm := newPerm }, r)
            (windowPairs (W.px.fdiv 8) (W.py.fdiv 8))).2
          (loadChunksFold f ({ W with seed := some ws, perm := newPerm }, r)
            (windowPairs (W.px.fdiv 8) (W.py.fdiv 8))).1.sx
          (loadChunksFold f ({ W with seed := some ws, perm := newPerm }, r)
            (windowPairs (W.px.fdiv 8) (W.py.fdiv 8))).1.sy).2) := rfl

set_option maxRecDepth 8000 in
set_option maxHeartbeats 2000000 in
/-- Claim C6 as amended: starting from a fresh world (player at the
origin, spawn sentinel unset), `initialize(seed)` stores the seed, resets
the permutation table to the freshly drawn one, and marks the world
loaded; it does **not** clear the chunk map — every pre-existing binding
survives unchanged — and it ensures the 6×6 block of chunks with
coordinates from playerChunk−3 to playerChunk+2 inclusive on both axes
(36 chunks; `range(xp-3, xp+3)` excludes xp+3) is present; finally the
player stands exactly on the discovered spawn point. -/
theorem c6_initialize (f : NoiseField) (W : World) (newPerm : List Nat)
    (r : Rng) (ws : Int)
    (hpx : W.px = 0) (hpy : W.py = 0) (hsx : W.sx = 0) (hsy : W.sy = 0) :
    ((initWorld f W newPerm r ws).1.seed = some ws ∧
     (initWorld f W newPerm r ws).1.perm = newPerm ∧
     (initWorld f W newPerm r ws).1.loaded = true) ∧
    (∀ cx cy : Int, -3 ≤ cx → cx ≤ 2 → -3 ≤ cy → cy ≤ 2 →
      (dictGet (cx, cy)
        (initWorld f W newPerm r ws).1.chunks).isSome = true) ∧
    (∀ (k : Int × Int) (g : Chunk), dictGet k W.chunks = some g →
      dictGet k (initWorld f W newPerm r ws).1.chunks = some g) ∧
    ((initWorld f W newPerm r ws).1.px = (initWorld f W newPerm r ws).1.sx ∧
     (initWorld f W newPerm r ws).1.py =
       (initWorld f W newPerm r ws).1.sy) := by
  have hdiv0 : (0 : Int).fdiv 8 = 0 := by decide
  rw [initWorld_eq]
  obtain ⟨ST, hST⟩ : ∃ S, loadChunksFold f
      ({ W with seed := some ws, perm := newPerm }, r)
      (windowPairs (W.px.fdiv 8) (W.py.fdiv 8)) = S := ⟨_, rfl⟩
  rw [hST]
  obtain ⟨PM, hPM⟩ : ∃ P, playerMove f ST.1 ST.2 ST.1.sx ST.1.sy = P :=
    ⟨_, rfl⟩
  rw [hPM]
  have hscal := loadChunksFold_scalars f
    (windowPairs (W.px.fdiv 8) (W.py.fdiv 8))
    ({ W with seed := some ws, perm := newPerm }, r)
  rw [hST] at hscal
  have hstseed : ST.1.seed = some ws := hscal.1
  have hstperm : ST.1.perm = newPerm := hscal.2.1
  have hstpx : ST.1.px = 0 := hscal.2.2.2.1.trans hpx
  have hstpy : ST.1.py = 0 := hscal.2.2.2.2.1.trans hpy
  have hinv : SpawnInv ST.1 := by
    rw [← hST]
    exact loadChunksFold_spawnInv f _ _ (Or.inl ⟨hsx, hsy⟩)
  have hwin : ∀ cx cy : Int, -3 ≤ cx → cx ≤ 2 → -3 ≤ cy → cy ≤ 2 →
      (dictGet (cx, cy) ST.1.chunks).isSome = true := by
    intro cx cy h1 h2 h3 h4
    rw [← hST]
    apply loadChunksFold_ensures
    have e1 : W.px.fdiv 8 = 0 := by rw [hpx]; exact hdiv0
    have e2 : W.py.fdiv 8 = 0 := by rw [hpy]; exact hdiv0
    apply windowPairs_mem <;> simp only [e1, e2] <;> omega
  have hkeep : ∀ (k : Int × Int) (g : Chunk), dictGet k W.chunks = some g →
      dictGet k ST.1.chunks = some g := by
    intro k g hk
    rw [← hST]
    exact loadChunksFold_preserves f _ _ k g hk
  have hB : PM.1.px = ST.1.sx ∧ PM.1.py = ST.1.sy ∧
      PM.1.sx = ST.1.sx ∧ PM.1.sy = ST.1.sy ∧
      PM.1.chunks = ST.1.chunks ∧ PM.1.seed = ST.1.seed ∧
      PM.1.perm = ST.1.perm := by
    rcases hinv with hz | ⟨t, ht, hq, hsol⟩
    · have hmv : playerMove f ST.1 ST.2 ST.1.sx ST.1.sy = (ST.1, ST.2) := by
        have e1 : ST.1.sx = ST.1.px := hz.1.trans hstpx.symm
        have e2 : ST.1.sy = ST.1.py := hz.2.trans hstpy.symm
        rw [e1, e2]
        apply playerMove_self
        rw [hstpx, hstpy, hdiv0]
        apply hwin <;> norm_num
      have hPMeq : PM = (ST.1, ST.2) := hPM.symm.trans hmv
      rw [hPMeq]
      exact ⟨hstpx.trans hz.1.symm, hstpy.trans hz.2.symm, rfl, rfl, rfl,
        rfl, rfl⟩
    · have hprest : (dictGet (ST.1.sx.fdiv 8, ST.1.sy.fdiv 8)
          ST.1.chunks).isSome = true := by
        unfold tileAtD at ht
        cases hd : dictGet (ST.1.sx.fdiv 8, ST.1.sy.fdiv 8) ST.1.chunks with
        | none => rw [hd] at ht; cases ht
        | some g => rfl
      have hns : ∀ t2, tileAtD ST.1 ST.1.sx ST.1.sy = some t2 →
          t2.solid = false := by
        intro t2 h2
        rw [ht] at h2
        cases h2
        exact hsol
      have hmv := playerMove_to f ST.1 ST.2 ST.1.sx ST.1.sy hprest hns
      rw [hPM] at hmv
      exact ⟨hmv.1, hmv.2.1, hmv.2.2.2.1, hmv.2.2.2.2.1, hmv.2.2.1,
        hmv.2.2.2.2.2.1, hmv.2.2.2.2.2.2.1⟩
  refine ⟨⟨?_, ?_, rfl⟩, ?_, ?_, ?_, ?_⟩
  · show PM.1.seed = some ws
    rw [hB.2.2.2.2.2.1]
    exact hstseed
  · show PM.1.perm = newPerm
    rw [hB.2.2.2.2.2.2]
    exact hstperm
  · intro cx cy h1 h2 h3 h4
    show (dictGet (cx, cy) PM.1.chunks).isSome = true
    rw [hB.2.2.2.2.1]
    exact hwin cx cy h1 h2 h3 h4
  · intro k g hk
    show dictGet k PM.1.chunks = some g
    rw [hB.2.2.2.2.1]
    exact hkeep k g hk
  · show PM.1.px = PM.1.sx
    rw [hB.1, hB.2.2.1]
  · show PM.1.py = PM.1.sy
    rw [hB.2.1, hB.2.2.2.1]

/-- A fresh world that already carries one far-away materialised chunk,
at chunk coordinates (99, 99). -/
def c6pre : World := { emptyWorld with chunks := [((99, 99), grassGrid)] }

set_option maxRecDepth 4000 in
set_option maxHeartbeats 1000000 in
/-- Counterexample to claim C6 as stated: running `initialize` on a world
holding a chunk at (99, 99) leaves that binding in the map untouched (the
chunk map is **not** cleared), and chunk (3, 3) — inside the claimed
7×7 block from −3 to +3 inclusive — is **not** generated, because
`range(xp - 3, xp + 3)` stops at +2, producing a 6×6 block of 36 chunks. -/
theorem c6_cex :
    dictGet (99, 99) (initWorld fieldOcean c6pre [7] rngZero 5).1.chunks
      = some grassGrid ∧
    dictGet (3, 3) (initWorld fieldOcean c6pre [7] rngZero 5).1.chunks
      = none := by
  have hdiv0 : (0 : Int).fdiv 8 = 0 := by decide
  rw [initWorld_eq]
  obtain ⟨ST, hST⟩ : ∃ S, loadChunksFold fieldOcean
      ({ c6pre with seed := some 5, perm := [7] }, rngZero)
      (windowPairs (c6pre.px.fdiv 8) (c6pre.py.fdiv 8)) = S := ⟨_, rfl⟩
  rw [hST]
  obtain ⟨PM, hPM⟩ : ∃ P,
      playerMove fieldOcean ST.1 ST.2 ST.1.sx ST.1.sy = P := ⟨_, rfl⟩
  rw [hPM]
  have hscal := loadChunksFold_scalars fieldOcean
    (windowPairs (c6pre.px.fdiv 8) (c6pre.py.fdiv 8))
    ({ c6pre with seed := some 5, perm := [7] }, rngZero)
  rw [hST] at hscal
  have hstpx : ST.1.px = 0 := hscal.2.2.2.1
  have hstpy : ST.1.py = 0 := hscal.2.2.2.2.1
  have hinv : SpawnInv ST.1 := by
    rw [← hST]
    exact loadChunksFold_spawnInv fieldOcean _ _ (Or.inl ⟨rfl, rfl⟩)
  have hpresent00 : (dictGet (0, 0) ST.1.chunks).isSome = true := by
    rw [← hST]
    apply loadChunksFold_ensures
    show ((0 : Int), (0 : Int)) ∈
      windowPairs (c6pre.px.fdiv 8) (c6pre.py.fdiv 8)
    with_unfolding_all decide
  have hchunks : PM.1.chunks = ST.1.chunks := by
    rcases hinv with hz | ⟨t, ht, hq, hsol⟩
    · have hmv : playerMove fieldOcean ST.1 ST.2 ST.1.sx ST.1.sy
          = (ST.1, ST.2) := by
        have e1 : ST.1.sx = ST.1.px := hz.1.trans hstpx.symm
        have e2 : ST.1.sy = ST.1.py := hz.2.trans hstpy.symm
        rw [e1, e2]
        apply playerMove_self
        rw [hstpx, hstpy, hdiv0]
        exact hpresent00
      have hPMeq : PM = (ST.1, ST.2) := hPM.symm.trans hmv
      rw [hPMeq]
    · have hprest : (dictGet (ST.1.sx.fdiv 8, ST.1.sy.fdiv 8)
          ST.1.chunks).isSome = true := by
        unfold tileAtD at ht
        cases hd : dictGet (ST.1.sx.fdiv 8, ST.1.sy.fdiv 8) ST.1.chunks with
        | none => rw [hd] at ht; cases ht
        | some g => rfl
      have hns : ∀ t2, tileAtD ST.1 ST.1.sx ST.1.sy = some t2 →
          t2.solid = false := by
        intro t2 h2
        rw [ht] at h2
        cases h2
        exact hsol
      have hmv := playerMove_to fieldOcean ST.1 ST.2 ST.1.sx ST.1.sy
        hprest hns
      rw [hPM] at hmv
      exact hmv.2.2.1
  constructor
  · show dictGet (99, 99) PM.1.chunks = some grassGrid
    rw [hchunks, ← hST]
    apply loadChunksFold_preserves
    show dictGet (99, 99) c6pre.chunks = some grassGrid
    with_unfolding_all decide
  · show dictGet (3, 3) PM.1.chunks = none
    have hnot : ((3 : Int), (3 : Int)) ∉
        windowPairs (c6pre.px.fdiv 8) (c6pre.py.fdiv 8) := by
      with_unfolding_all decide
    rw [hchunks, ← hST, loadChunksFold_chunks_other fieldOcean _ _ _ hnot]
    with_unfolding_all decide

/-- Witness for C6: the amended statement evaluated on a concrete fresh
world, all-ocean noise, permutation [7], seed 5. -/
theorem c6_initialize_witness :
    ((initWorld fieldOcean emptyWorld [7] rngZero 5).1.seed = some 5 ∧
     (initWorld fieldOcean emptyWorld [7] rngZero 5).1.perm = [7] ∧
     (initWorld fieldOcean emptyWorld [7] rngZero 5).1.loaded = true) ∧
    (∀ cx cy : Int, -3 ≤ cx → cx ≤ 2 → -3 ≤ cy → cy ≤ 2 →
      (dictGet (cx, cy)
        (initWorld fieldOcean emptyWorld [7] rngZero 5).1.chunks).isSome
          = true) ∧
    (∀ (k : Int × Int) (g : Chunk), dictGet k emptyWorld.chunks = some g →
      dictGet k (initWorld fieldOcean emptyWorld [7] rngZero 5).1.chunks
        = some g) ∧
    ((initWorld fieldOcean emptyWorld [7] rngZero 5).1.px =
       (initWorld fieldOcean emptyWorld [7] rngZero 5).1.sx ∧
     (initWorld fieldOcean emptyWorld [7] rngZero 5).1.py =
       (initWorld fieldOcean emptyWorld [7] rngZero 5).1.sy) :=
  c6_initialize fieldOcean emptyWorld [7] rngZero 5 rfl rfl rfl rfl
